import Mathlib

/-!
# DersDostu dictation controller (`internal/speech/service.go`)

A shallow embedding of `SpeechService`: the struct fields guarded by `mu`, the
three controller calls (`StartDictation`, `StopDictation`, `Shutdown`), the
background loop `processAudio` and the dispatcher `handleResult`.

Conventions of the embedding.

* Handles (`*vosk.VoskModel`, `*vosk.VoskRecognizer`, `*portaudio.Stream`,
  `context.Context`) are natural numbers; a nil pointer is `none`.
* What the device, the engine and `json.Unmarshal` answer is not computed by
  the repository: every call takes those answers as an explicit input record.
* Every operation returns, besides the new state, the list of its observable
  effects (lock operations, adapter calls, emitted events) in program order.
  `log.Println` calls are not recorded.
* `StartDictation` holds `mu` from its first line to its return, so it is one
  atomic step.  `StopDictation` and `Shutdown` release `mu` around
  `wg.Wait()`, so each is two atomic steps with the join in between.  One
  iteration of `processAudio` is four atomic steps.
-/

namespace Speech

/-! ## Strings

A Go string is here a Lean `String`, a sequence of Unicode code points: the
texts the service handles come out of `json.Unmarshal`, which yields valid
UTF-8.  The functions below are those of the Go library the source calls. -/

/-- Go `unicode.IsSpace`: the Latin-1 spaces, then the `White_Space` property. -/
def isSpace (c : Char) : Bool :=
  let r := c.toNat
  if r ≤ 0xFF then
    r = 0x09 || r = 0x0A || r = 0x0B || r = 0x0C || r = 0x0D || r = 0x20 || r = 0x85 || r = 0xA0
  else
    r = 0x1680 || (0x2000 ≤ r && r ≤ 0x200A) || r = 0x2028 || r = 0x2029 || r = 0x202F
      || r = 0x205F || r = 0x3000

/-- Go `strings.TrimSpace`: drop the leading and the trailing white space. -/
def TrimSpace (s : String) : String :=
  ⟨((s.data.dropWhile isSpace).reverse.dropWhile isSpace).reverse⟩

/-- Go `unicode.ToLower` on one rune.  The ASCII branch is the one of the
library; above ASCII the library consults its Unicode case table, which is the
parameter `tbl`. -/
def lowerRune (tbl : Char → Char) (c : Char) : Char :=
  if c.toNat ≤ 0x7F then
    if 'A'.toNat ≤ c.toNat ∧ c.toNat ≤ 'Z'.toNat then Char.ofNat (c.toNat + 32) else c
  else tbl c

/-- Go `strings.ToLower`: every rune mapped by `unicode.ToLower`. -/
def ToLower (tbl : Char → Char) (s : String) : String :=
  ⟨s.data.map (lowerRune tbl)⟩

/-- Go `strings.Contains`. -/
def Contains (s sub : String) : Bool :=
  s.data.tails.any (fun t => sub.data.isPrefixOf t)

/-- The part of the Unicode lower-case table the Turkish alphabet needs
(Ç Ğ İ Ö Ş Ü); every other rune is left as it is.  Used to evaluate the
dispatcher on concrete utterances. -/
def turkishLower (c : Char) : Char :=
  if c = 'Ç' then 'ç' else if c = 'Ğ' then 'ğ' else if c = 'İ' then 'i'
  else if c = 'Ö' then 'ö' else if c = 'Ş' then 'ş' else if c = 'Ü' then 'ü' else c

/-! ## Events and effects -/

abbrev Handle := Nat

/-- The data argument of `runtime.EventsEmit`: `true`, a string, or a
`map[string]interface{}` literal (its entries in source order). -/
inductive Payload
  | flag (b : Bool)
  | text (s : String)
  | fields (kv : List (String × String))
  deriving DecidableEq, Repr

/-- Observable effects of the service, in program order. -/
inductive Effect
  | lock
  | unlock
  | newRecognizer (model : Handle) (res : Option Handle)
  | setWords (rec : Handle)
  | makeBuffer
  | openStream (res : Option Handle)
  | streamStart (stream : Handle) (ok : Bool)
  | streamStop (stream : Handle)
  | streamClose (stream : Handle)
  | streamRead (stream : Handle) (err : Option String)
  | acceptWaveform (rec : Handle) (bytes : List Nat) (ret : Int)
  | result (rec : Handle)
  | partialResult (rec : Handle)
  | recognizerFree (rec : Handle)
  | modelFree (model : Handle)
  | terminate
  | wgWait
  | spawn
  | loopExit
  | emit (name : String) (payload : Payload)
  deriving DecidableEq, Repr

/-- The events among the effects: name and payload of every `EventsEmit`. -/
def events : List Effect → List (String × Payload)
  | [] => []
  | Effect.emit n p :: rest => (n, p) :: events rest
  | _ :: rest => events rest

/-- Number of events with the given name among the effects. -/
def countEvent (name : String) (tr : List Effect) : Nat :=
  ((events tr).filter (fun e => e.1 = name)).length

/-! ## Command dispatcher -/

/-- The case labels of the `switch` in `handleResult`. -/
def commandPhrases : List String :=
  ["kırmızı kalem", "kirmizi kalem", "mavi kalem", "silgi", "temizle", "sıfırla"]

/-- The method `SpeechService.handleResult`: the events it emits for a final text. -/
def handleResult (tbl : Char → Char) (text : String) : List Effect :=
  let text := TrimSpace text
  if text = "" then []
  else
    let lowerText := ToLower tbl text
    if lowerText = "kırmızı kalem" ∨ lowerText = "kirmizi kalem" then
      [Effect.emit "voice-command"
        (Payload.fields [("action", "tool-change"), ("tool", "pencil"), ("color", "#FF0000")])]
    else if lowerText = "mavi kalem" then
      [Effect.emit "voice-command"
        (Payload.fields [("action", "tool-change"), ("tool", "pencil"), ("color", "#0000FF")])]
    else if lowerText = "silgi" then
      [Effect.emit "voice-command"
        (Payload.fields [("action", "tool-change"), ("tool", "eraser")])]
    else if lowerText = "temizle" ∨ lowerText = "sıfırla" then
      [Effect.emit "voice-command" (Payload.fields [("action", "canvas-clear")])]
    else
      [Effect.emit "speech-text" (Payload.text text)]

/-! ## Session state -/

/-- The fields of `SpeechService` that `mu` guards, and the stop channel.
`stopChan` is a channel of capacity one: `none` is the empty channel, `some b`
the channel holding the pending value `b`.  The wait group is not a field here:
its counter is the number of live `processAudio` goroutines, kept in `System`. -/
structure SpeechService where
  ctx : Option Handle
  isListening : Bool
  model : Option Handle
  recognizer : Option Handle
  stream : Option Handle
  stopChan : Option Bool
  deriving DecidableEq, Repr

/-- The constructor `NewSpeechService`. -/
def NewSpeechService : SpeechService :=
  { ctx := none, isListening := false, model := none, recognizer := none,
    stream := none, stopChan := none }

/-- The method `SpeechService.Startup`: stores the context and loads the model;
`loaded` is what `vosk.NewModel` returns (`none` on error, where `LoadModel`
leaves the field as it was). -/
def Startup (ctx : Handle) (loaded : Option Handle) (s : SpeechService) : SpeechService :=
  match loaded with
  | some m => { s with ctx := some ctx, model := some m }
  | none => { s with ctx := some ctx }

/-- The method `SpeechService.IsListening`. -/
def IsListening (s : SpeechService) : Bool := s.isListening

/-- The errors `StartDictation` returns, one per `fmt.Errorf` of the source. -/
inductive StartError
  | alreadyListening
  | modelNotLoaded
  | createRecognizer
  | openStream
  | reopenStream
  | fatalStreamStart
  deriving DecidableEq, Repr

/-- The message of each error. -/
def StartError.message : StartError → String
  | .alreadyListening => "already listening"
  | .modelNotLoaded => "model not loaded - check logs"
  | .createRecognizer => "failed to create recognizer"
  | .openStream => "failed to open stream"
  | .reopenStream => "failed to re-open stream"
  | .fatalStreamStart => "fatal stream start failure"

/-- What the adapters answer during one `StartDictation`: the recognizer
`vosk.NewRecognizer` returns, the stream of the first and of the second
`portaudio.OpenDefaultStream` (`none` is an error, with a nil result), and
whether the first and the second `stream.Start()` succeed.  An answer is only
consulted if the call is made. -/
structure StartEnv where
  newRecognizer : Option Handle
  open1 : Option Handle
  start1 : Bool
  open2 : Option Handle
  start2 : Bool
  deriving DecidableEq, Repr

/-- Outcome of `StartDictation` on the struct: new state, returned error
(`none` is a nil error), whether `go s.processAudio` was executed, effects. -/
structure StartResult where
  svc : SpeechService
  err : Option StartError
  spawned : Bool
  trace : List Effect
  deriving DecidableEq, Repr

/-- Lines 135-149 of `StartDictation`: drain the stop channel, set the flag,
launch the loop, emit `speech-started`. -/
def startLaunch (s : SpeechService) (pre : List Effect) : StartResult :=
  { svc := { s with stopChan := none, isListening := true }
    err := none
    spawned := true
    trace := pre ++ [Effect.spawn, Effect.emit "speech-started" (Payload.flag true), Effect.unlock] }

/-- Lines 120-133 of `StartDictation`: start the stream `h`, re-opening it
once if the start fails. -/
def startStream (env : StartEnv) (s : SpeechService) (h : Handle) (pre : List Effect) :
    StartResult :=
  if env.start1 then
    startLaunch s (pre ++ [Effect.streamStart h true])
  else
    let pre := pre ++ [Effect.streamStart h false, Effect.streamClose h,
      Effect.openStream env.open2]
    match env.open2 with
    | none =>
      { svc := { s with stream := none }, err := some .reopenStream, spawned := false,
        trace := pre ++ [Effect.unlock] }
    | some h2 =>
      let s := { s with stream := some h2 }
      if env.start2 then
        startLaunch s (pre ++ [Effect.streamStart h2 true])
      else
        { svc := s, err := some .fatalStreamStart, spawned := false,
          trace := pre ++ [Effect.streamStart h2 false, Effect.unlock] }

/-- Lines 107-118 of `StartDictation`: open the stream if there is none. -/
def startOpen (env : StartEnv) (s : SpeechService) (pre : List Effect) : StartResult :=
  match s.stream with
  | some h => startStream env s h pre
  | none =>
    let pre := pre ++ [Effect.makeBuffer, Effect.openStream env.open1]
    match env.open1 with
    | none =>
      { svc := s, err := some .openStream, spawned := false, trace := pre ++ [Effect.unlock] }
    | some h => startStream env { s with stream := some h } h pre

/-- The method `SpeechService.StartDictation`.  The deferred unlock is the last effect of
every path. -/
def StartDictation (env : StartEnv) (s : SpeechService) : StartResult :=
  if s.isListening then
    { svc := s, err := some .alreadyListening, spawned := false,
      trace := [Effect.lock, Effect.unlock] }
  else
    match s.model with
    | none =>
      { svc := s, err := some .modelNotLoaded, spawned := false,
        trace := [Effect.lock, Effect.unlock] }
    | some m =>
      match s.recognizer with
      | some _ => startOpen env s [Effect.lock]
      | none =>
        match env.newRecognizer with
        | none =>
          { svc := s, err := some .createRecognizer, spawned := false,
            trace := [Effect.lock, Effect.newRecognizer m none, Effect.unlock] }
        | some r =>
          startOpen env { s with recognizer := some r }
            [Effect.lock, Effect.newRecognizer m (some r), Effect.setWords r]

/-- Lines 153-172 of `StopDictation`, under `mu`: the state, whether the call
goes on to the join (`false`: it returned nil at line 157), the effects.  The
send on the stop channel is dropped when the channel is full. -/
def stopBegin (s : SpeechService) : SpeechService × Bool × List Effect :=
  if s.isListening then
    let chan := match s.stopChan with
      | none => some true
      | some b => some b
    let stops := match s.stream with
      | some h => [Effect.streamStop h]
      | none => []
    ({ s with isListening := false, stopChan := chan }, true,
      [Effect.lock] ++ stops ++ [Effect.unlock])
  else
    (s, false, [Effect.lock, Effect.unlock])

/-- Lines 174-190 of `StopDictation`, once `wg.Wait()` has returned: free the
recognizer, then emit `speech-stopped` if there is a context. -/
def stopFinish (s : SpeechService) : SpeechService × List Effect :=
  let frees := match s.recognizer with
    | some r => [Effect.recognizerFree r]
    | none => []
  let emits := match s.ctx with
    | some _ => [Effect.emit "speech-stopped" (Payload.flag true)]
    | none => []
  ({ s with recognizer := none },
    [Effect.wgWait, Effect.lock] ++ frees ++ [Effect.unlock] ++ emits)

/-- Lines 195-198 of `Shutdown`. -/
def shutdownBegin (s : SpeechService) : SpeechService × List Effect :=
  ({ s with isListening := false }, [Effect.lock, Effect.unlock])

/-- Lines 201-224 of `Shutdown`, once `wg.Wait()` has returned. -/
def shutdownFinish (s : SpeechService) : SpeechService × List Effect :=
  let closes := match s.stream with
    | some h => [Effect.streamStop h, Effect.streamClose h]
    | none => []
  let frees := match s.recognizer with
    | some r => [Effect.recognizerFree r]
    | none => []
  let models := match s.model with
    | some m => [Effect.modelFree m]
    | none => []
  ({ s with stream := none, recognizer := none, model := none },
    [Effect.wgWait, Effect.lock] ++ closes ++ frees ++ models ++ [Effect.terminate, Effect.unlock])

/-! ## Processing loop -/

/-- What the adapters answer during one step of `processAudio`: the error of
`stream.Read()` (`none` is nil), the samples the read left in the buffer, the
value of `AcceptWaveform`, and what `json.Unmarshal` makes of the recognizer's
answer (`none`: a decoding error; `some t`: the `text` or `partial` field).
An answer is only consulted by the step that makes the call. -/
structure LoopInput where
  readErr : Option String
  samples : List Int
  accept : Int
  decoded : Option String
  deriving DecidableEq, Repr

/-- Where a `processAudio` goroutine stands between two atomic steps. -/
inductive LoopState
  | top
  | checked (listening : Bool) (stream recognizer : Option Handle)
  | reading (stream : Handle)
  | feeding (bytes : List Nat)
  deriving DecidableEq, Repr

/-- The condition of line 254 on the message of a read error. -/
def recoverable (msg : String) : Bool :=
  Contains msg "bad state" || Contains msg "underrun"

/-- Lines 270-274: two bytes per sample, `byte(sample)` then
`byte(sample >> 8)` (the shift of a signed value is arithmetic). -/
def encodeSamples : List Int → List Nat
  | [] => []
  | sample :: rest =>
    (sample % 256).toNat :: ((sample / 256) % 256).toNat :: encodeSamples rest

/-- Outcome of one atomic step of the loop; `next = none` when the goroutine
returned (and its deferred `wg.Done()` ran). -/
structure LoopResult where
  svc : SpeechService
  next : Option LoopState
  trace : List Effect
  deriving DecidableEq, Repr

/-- One atomic step of `processAudio`.
* `top`: lines 232-236, the snapshot under `mu`;
* `checked`: lines 238-247, the test of the snapshot and the `select`;
* `reading`: lines 249-274, `stream.Read()` returns;
* `feeding`: lines 276-308, the frame goes to the recognizer. -/
def loopStep (tbl : Char → Char) (io : LoopInput) (ls : LoopState) (s : SpeechService) :
    LoopResult :=
  match ls with
  | .top =>
    { svc := s, next := some (.checked s.isListening s.stream s.recognizer),
      trace := [Effect.lock, Effect.unlock] }
  | .checked true (some st) (some _) =>
    match s.stopChan with
    | some _ => { svc := { s with stopChan := none }, next := none, trace := [Effect.loopExit] }
    | none => { svc := s, next := some (.reading st), trace := [] }
  | .checked _ _ _ => { svc := s, next := none, trace := [Effect.loopExit] }
  | .reading st =>
    match io.readErr with
    | some msg =>
      if recoverable msg then
        { svc := { s with stream := none, isListening := false }, next := none,
          trace := [Effect.streamRead st (some msg), Effect.lock, Effect.streamStop st,
            Effect.streamClose st, Effect.unlock,
            Effect.emit "speech-stopped" (Payload.flag true), Effect.loopExit] }
      else
        { svc := s, next := none, trace := [Effect.streamRead st (some msg), Effect.loopExit] }
    | none =>
      { svc := s, next := some (.feeding (encodeSamples io.samples)),
        trace := [Effect.streamRead st none] }
  | .feeding bytes =>
    match s.recognizer with
    | none => { svc := s, next := none, trace := [Effect.lock, Effect.unlock, Effect.loopExit] }
    | some r =>
      if io.accept = 1 then
        let pre := [Effect.lock, Effect.acceptWaveform r bytes io.accept, Effect.result r,
          Effect.unlock]
        match io.decoded with
        | none => { svc := s, next := some .top, trace := pre }
        | some text =>
          { svc := s, next := some .top,
            trace := pre ++ (if text = "" then [] else handleResult tbl text) }
      else
        let pre := [Effect.lock, Effect.acceptWaveform r bytes io.accept,
          Effect.partialResult r, Effect.unlock]
        match io.decoded with
        | none => { svc := s, next := some .top, trace := pre }
        | some text =>
          { svc := s, next := some .top,
            trace := pre ++
              (if text = "" then [] else [Effect.emit "speech-partial" (Payload.text text)]) }

/-- One iteration of the `for` loop run without interruption, from the
snapshot to the `continue` (or the return): the four steps in order. -/
def processAudioIteration (tbl : Char → Char) (io : LoopInput) (s : SpeechService) :
    LoopResult :=
  let r1 := loopStep tbl io .top s
  match r1.next with
  | none => r1
  | some l2 =>
    let r2 := loopStep tbl io l2 r1.svc
    match r2.next with
    | none => { r2 with trace := r1.trace ++ r2.trace }
    | some l3 =>
      let r3 := loopStep tbl io l3 r2.svc
      match r3.next with
      | none => { r3 with trace := r1.trace ++ r2.trace ++ r3.trace }
      | some l4 =>
        let r4 := loopStep tbl io l4 r3.svc
        { r4 with trace := r1.trace ++ r2.trace ++ r3.trace ++ r4.trace }

/-! ## The session with its goroutines -/

/-- The struct together with the goroutines that work on it: the live
`processAudio` loops (the wait group counts them), and the numbers of
`StopDictation` and `Shutdown` calls that are between their two locked
sections. -/
structure System where
  svc : SpeechService
  loops : List LoopState
  stopping : Nat
  shuttingDown : Nat
  deriving DecidableEq, Repr

/-- The process right after `NewSpeechService()`. -/
def System.init : System :=
  { svc := NewSpeechService, loops := [], stopping := 0, shuttingDown := 0 }

/-- The atomic steps of the system. -/
inductive Action
  | startup (ctx : Handle) (loaded : Option Handle)
  | start (env : StartEnv)
  | stopBegin
  | stopFinish
  | shutdownBegin
  | shutdownFinish
  | loop (i : Nat) (io : LoopInput)
  deriving DecidableEq, Repr

/-- One atomic step; `none` when the step cannot be taken (a join with a loop
still alive, a loop that does not exist). -/
def step (tbl : Char → Char) (a : Action) (sys : System) : Option (System × List Effect) :=
  match a with
  | .startup ctx loaded => some ({ sys with svc := Startup ctx loaded sys.svc }, [])
  | .start env =>
    let r := StartDictation env sys.svc
    some ({ sys with svc := r.svc,
                     loops := if r.spawned then sys.loops ++ [LoopState.top] else sys.loops },
      r.trace)
  | .stopBegin =>
    let r := stopBegin sys.svc
    some ({ sys with svc := r.1, stopping := if r.2.1 then sys.stopping + 1 else sys.stopping },
      r.2.2)
  | .stopFinish =>
    if 0 < sys.stopping ∧ sys.loops = [] then
      let r := stopFinish sys.svc
      some ({ sys with svc := r.1, stopping := sys.stopping - 1 }, r.2)
    else none
  | .shutdownBegin =>
    let r := shutdownBegin sys.svc
    some ({ sys with svc := r.1, shuttingDown := sys.shuttingDown + 1 }, r.2)
  | .shutdownFinish =>
    if 0 < sys.shuttingDown ∧ sys.loops = [] then
      let r := shutdownFinish sys.svc
      some ({ sys with svc := r.1, shuttingDown := sys.shuttingDown - 1 }, r.2)
    else none
  | .loop i io =>
    match sys.loops[i]? with
    | none => none
    | some ls =>
      let r := loopStep tbl io ls sys.svc
      match r.next with
      | some ls1 => some ({ sys with svc := r.svc, loops := sys.loops.set i ls1 }, r.trace)
      | none => some ({ sys with svc := r.svc, loops := sys.loops.eraseIdx i }, r.trace)

/-- A run of atomic steps, with the effects of all of them. -/
def run (tbl : Char → Char) : List Action → System → Option (System × List Effect)
  | [], sys => some (sys, [])
  | a :: rest, sys =>
    match step tbl a sys with
    | none => none
    | some (sys1, t1) =>
      match run tbl rest sys1 with
      | none => none
      | some (sys2, t2) => some (sys2, t1 ++ t2)

/-- The loop steps of a schedule: loop number and adapter answers of each. -/
def loopActions (join : List (Nat × LoopInput)) : List Action :=
  join.map (fun p => Action.loop p.1 p.2)

/-- Outcome of a whole controller call made while no other controller call is
in progress: the system after the return, the effects of the call itself, and
the effects of the loops while the call was blocked in `wg.Wait()`. -/
structure CallResult where
  sys : System
  trace : List Effect
  loopTrace : List Effect
  deriving DecidableEq, Repr

/-- The method `SpeechService.StopDictation` as one call; it always returns
nil.  `join` is what the loops do while the call waits; the result is `none`
when the schedule leaves a loop alive (the call is still blocked). -/
def StopDictation (tbl : Char → Char) (join : List (Nat × LoopInput)) (sys : System) :
    Option CallResult :=
  match step tbl .stopBegin sys with
  | none => none
  | some (sys1, t1) =>
    if sys.svc.isListening then
      match run tbl (loopActions join) sys1 with
      | none => none
      | some (sys2, tl) =>
        match step tbl .stopFinish sys2 with
        | none => none
        | some (sys3, t3) => some { sys := sys3, trace := t1 ++ t3, loopTrace := tl }
    else
      some { sys := sys1, trace := t1, loopTrace := [] }

/-- The method `SpeechService.Shutdown` as one call, with the schedule of the
loops during its `wg.Wait()`. -/
def Shutdown (tbl : Char → Char) (join : List (Nat × LoopInput)) (sys : System) :
    Option CallResult :=
  match step tbl .shutdownBegin sys with
  | none => none
  | some (sys1, t1) =>
    match run tbl (loopActions join) sys1 with
    | none => none
    | some (sys2, tl) =>
      match step tbl .shutdownFinish sys2 with
      | none => none
      | some (sys3, t3) => some { sys := sys3, trace := t1 ++ t3, loopTrace := tl }

/-! ## Reachable states -/

/-- The states the system reaches from `System.init` by atomic steps that
all satisfy `allowed`. -/
inductive ReachableVia (tbl : Char → Char) (allowed : Action → System → Prop) : System → Prop
  | init : ReachableVia tbl allowed System.init
  | next {sys sys1 : System} {a : Action} {tr : List Effect} :
      ReachableVia tbl allowed sys → allowed a sys → step tbl a sys = some (sys1, tr) →
      ReachableVia tbl allowed sys1

/-- The states the system reaches from `System.init` by any atomic steps. -/
def Reachable (tbl : Char → Char) (sys : System) : Prop :=
  ReachableVia tbl (fun _ _ => True) sys

/-! ## Sample inputs -/

/-- Adapter answers of a start where every call succeeds: recognizer 2,
stream 3 (stream 6 if the stream has to be opened again). -/
def envOk : StartEnv :=
  { newRecognizer := some 2, open1 := some 3, start1 := true, open2 := some 6, start2 := true }

/-- The session after `Startup` with context 0 and model 1 and a first
successful `StartDictation`: recognizer 2, stream 3, listening. -/
def listeningSvc : SpeechService :=
  { ctx := some 0, isListening := true, model := some 1, recognizer := some 2,
    stream := some 3, stopChan := none }

/-- The system of `listeningSvc`: one loop, about to take its first snapshot. -/
def listeningSys : System :=
  { svc := listeningSvc, loops := [LoopState.top], stopping := 0, shuttingDown := 0 }

/-- A frame of silence: the read succeeds, the recognizer answers with an
empty partial text. -/
def silence : LoopInput :=
  { readErr := none, samples := [0, -1, 256], accept := 0, decoded := some "" }

/-- A frame that ends an utterance whose text is two blanks. -/
def blankFinal : LoopInput :=
  { readErr := none, samples := [0, -1, 256], accept := 1, decoded := some "  " }

/-! ## Auxiliary notions for the statements -/

/-- The recognizers freed among the effects, in order. -/
def freedRecognizers : List Effect → List Handle
  | [] => []
  | Effect.recognizerFree r :: rest => r :: freedRecognizers rest
  | _ :: rest => freedRecognizers rest

/-- The handles released among the effects (recognizer or model freed, stream
closed), in order. -/
def releasedHandles : List Effect → List Handle
  | [] => []
  | Effect.recognizerFree r :: rest => r :: releasedHandles rest
  | Effect.modelFree m :: rest => m :: releasedHandles rest
  | Effect.streamClose h :: rest => h :: releasedHandles rest
  | _ :: rest => releasedHandles rest

/-- The streams opened among the effects: the results of the successful
`OpenDefaultStream` calls, in order. -/
def openedStreams : List Effect → List Handle
  | [] => []
  | Effect.openStream (some h) :: rest => h :: openedStreams rest
  | _ :: rest => openedStreams rest

/-- What the loop never touches: context, model and recognizer stay, and the
listening flag is never raised. -/
def LoopFrame (s s1 : SpeechService) : Prop :=
  s1.ctx = s.ctx ∧ s1.model = s.model ∧ s1.recognizer = s.recognizer ∧
    (s1.isListening = true → s.isListening = true)

/-- No read of the schedule fails with a recoverable device fault. -/
def NoDeviceFault (join : List (Nat × LoopInput)) : Prop :=
  ∀ p ∈ join, ∀ msg, p.2.readErr = some msg → recoverable msg = false

/-- The session of `listeningSvc` after a `StopDictation` during which the
loop saw the cleared flag and returned: recognizer freed, stream kept, the
stop signal still pending. -/
def stoppedSvc : SpeechService :=
  { ctx := some 0, isListening := false, model := some 1, recognizer := none,
    stream := some 3, stopChan := some true }

/-- The two loop steps during that stop: the snapshot, then the test that
makes the loop return. -/
def quietJoin : List (Nat × LoopInput) := [(0, silence), (0, silence)]

/-- Adapter answers of a start whose first `stream.Start()` fails and whose
re-open succeeds with stream 6; a new recognizer would be 4. -/
def envRestartFails : StartEnv :=
  { newRecognizer := some 4, open1 := some 5, start1 := false, open2 := some 6, start2 := true }

/-- Adapter answers of a start where every call succeeds at once; a new
recognizer would be 4, a new stream 5. -/
def envAgain : StartEnv :=
  { newRecognizer := some 4, open1 := some 5, start1 := true, open2 := some 6, start2 := true }

/-- The system after `Shutdown` of `listeningSys`. -/
def shutDownSys : System :=
  { svc := { ctx := some 0, isListening := false, model := none, recognizer := none,
             stream := none, stopChan := none },
    loops := [], stopping := 0, shuttingDown := 0 }

/-- The outcome of `Shutdown` on `listeningSys` when the loop returns at its
next test. -/
def shutdownOutcome : CallResult :=
  { sys := shutDownSys
    trace := [Effect.lock, Effect.unlock, Effect.wgWait, Effect.lock, Effect.streamStop 3,
      Effect.streamClose 3, Effect.recognizerFree 2, Effect.modelFree 1, Effect.terminate,
      Effect.unlock]
    loopTrace := [Effect.lock, Effect.unlock, Effect.loopExit] }

/-- The device errors of `StartDictation`: the ones returned after the
recognizer has been looked up or created. -/
def StartError.atDevice : StartError → Bool
  | .openStream => true
  | .reopenStream => true
  | .fatalStreamStart => true
  | _ => false

/-- Steps of a controller that makes one call at a time: a call begins only
when no `StopDictation` and no `Shutdown` is between its two locked sections.
Loop steps and the second halves of the calls are free. -/
def Sequential (a : Action) (sys : System) : Prop :=
  match a with
  | .loop _ _ => True
  | .stopFinish => True
  | .shutdownFinish => True
  | _ => sys.stopping = 0 ∧ sys.shuttingDown = 0

/-- Steps without a failure of the device: no `StartDictation` that returns a
device error, no read of the loop that fails with a recoverable fault. -/
def NoDeviceFailure (a : Action) (sys : System) : Prop :=
  match a with
  | .start env => ∀ e, (StartDictation env sys.svc).err = some e → e.atDevice = false
  | .loop i io =>
    ∀ h msg, sys.loops[i]? = some (LoopState.reading h) → io.readErr = some msg →
      recoverable msg = false
  | _ => True

/-- The system after `Startup` with context 0 and model 1. -/
def startedUpSys : System :=
  { svc := { ctx := some 0, isListening := false, model := some 1, recognizer := none,
             stream := none, stopChan := none },
    loops := [], stopping := 0, shuttingDown := 0 }

/-- The system of `listeningSvc` with its loop blocked in `stream.Read()`. -/
def readingSys : System :=
  { svc := listeningSvc, loops := [LoopState.reading 3], stopping := 0, shuttingDown := 0 }

/-- A read that fails with the ALSA message the source quotes. -/
def badState : LoopInput :=
  { readErr := some "File descriptor in bad state", samples := [], accept := 0,
    decoded := none }

/-- The system after that read: no stream, not listening, no loop, the
recognizer still there. -/
def faultedSys : System :=
  { svc := { ctx := some 0, isListening := false, model := some 1, recognizer := some 2,
             stream := none, stopChan := none },
    loops := [], stopping := 0, shuttingDown := 0 }

/-- Adapter answers of a start whose `OpenDefaultStream` fails. -/
def envOpenFails : StartEnv :=
  { newRecognizer := some 2, open1 := none, start1 := true, open2 := none, start2 := true }

/-- The system after `Startup` and a `StartDictation` that created recognizer
2 and then failed to open the stream. -/
def failedStartSys : System :=
  { svc := { ctx := some 0, isListening := false, model := some 1, recognizer := some 2,
             stream := none, stopChan := none },
    loops := [], stopping := 0, shuttingDown := 0 }

/-- The system of `listeningSys` after the first locked section of `Shutdown`. -/
def shuttingDownSys : System :=
  { svc := { ctx := some 0, isListening := false, model := some 1, recognizer := some 2,
             stream := some 3, stopChan := none },
    loops := [LoopState.top], stopping := 0, shuttingDown := 1 }

/-- The system after `StopDictation` on `listeningSys`. -/
def stoppedSys : System :=
  { svc := stoppedSvc, loops := [], stopping := 0, shuttingDown := 0 }

/-- The outcome of `StopDictation` on `listeningSys` when the loop returns at
its next test. -/
def stopOutcome : CallResult :=
  { sys := stoppedSys
    trace := [Effect.lock, Effect.streamStop 3, Effect.unlock, Effect.wgWait, Effect.lock,
      Effect.recognizerFree 2, Effect.unlock, Effect.emit "speech-stopped" (Payload.flag true)]
    loopTrace := [Effect.lock, Effect.unlock, Effect.loopExit] }

/-- The outcome of a `StopDictation` on `stoppedSys`. -/
def idleStopOutcome : CallResult :=
  { sys := stoppedSys, trace := [Effect.lock, Effect.unlock], loopTrace := [] }

/-- The system of `listeningSys` after the first locked section of
`StopDictation`, the call waiting for the loop. -/
def stoppingSys : System :=
  { svc := { ctx := some 0, isListening := false, model := some 1, recognizer := some 2,
             stream := some 3, stopChan := some true },
    loops := [LoopState.top], stopping := 1, shuttingDown := 0 }

/-! ## Notions for the lock discipline and the sample encoding -/

/-- The effects of a goroutine's trace, other than the lock operations
themselves, that happen while the goroutine holds `mu`; `held` says whether it
holds `mu` at the start of the trace. -/
def underLock : Bool → List Effect → List Effect
  | _, [] => []
  | _, Effect.lock :: rest => underLock true rest
  | _, Effect.unlock :: rest => underLock false rest
  | held, e :: rest => if held then e :: underLock held rest else underLock held rest

/-- Whether the goroutine holds `mu` at the end of the trace. -/
def lockAfter : Bool → List Effect → Bool
  | held, [] => held
  | _, Effect.lock :: rest => lockAfter true rest
  | _, Effect.unlock :: rest => lockAfter false rest
  | held, _ :: rest => lockAfter held rest

/-- The device reads among the effects. -/
def reads : List Effect → List (Handle × Option String)
  | [] => []
  | Effect.streamRead st err :: rest => (st, err) :: reads rest
  | _ :: rest => reads rest

/-- A trace that starts and ends with `mu` free and in which no event is
emitted and no device read is made while `mu` is held. -/
def EmitsUnlocked (tr : List Effect) : Prop :=
  lockAfter false tr = false ∧ events (underLock false tr) = [] ∧
    reads (underLock false tr) = []

/-- Decoding of a byte sequence as little-endian 16-bit two's-complement
samples: the low byte first, values from 32768 on are the negative ones. -/
def decodeSamples : List Nat → List Int
  | lo :: hi :: rest =>
    (if lo + 256 * hi < 32768 then ((lo + 256 * hi : Nat) : Int)
      else ((lo + 256 * hi : Nat) : Int) - 65536) :: decodeSamples rest
  | _ => []

/-- The system after `Startup`, a successful `StartDictation`, the first
locked section of `StopDictation`, and a second successful `StartDictation`
made before the first loop has returned: two loops, the stop still waiting. -/
def twoLoopsSys : System :=
  { svc := { ctx := some 0, isListening := true, model := some 1, recognizer := some 2,
             stream := some 3, stopChan := none },
    loops := [LoopState.top, LoopState.top], stopping := 1, shuttingDown := 0 }

/-- The system of `twoLoopsSys` once both loops have passed their test of the
flag and the `select`: both are in `stream.Read()` on stream 3. -/
def twoReadersSys : System :=
  { svc := { ctx := some 0, isListening := true, model := some 1, recognizer := some 2,
             stream := some 3, stopChan := none },
    loops := [LoopState.reading 3, LoopState.reading 3], stopping := 1, shuttingDown := 0 }

/-- The same race with `Shutdown` in place of `StopDictation`. -/
def twoLoopsShutdownSys : System :=
  { svc := { ctx := some 0, isListening := true, model := some 1, recognizer := some 2,
             stream := some 3, stopChan := none },
    loops := [LoopState.top, LoopState.top], stopping := 0, shuttingDown := 1 }

/-- The system of `listeningSvc` with its loop past the snapshot, about to
test it. -/
def checkedSys : System :=
  { svc := listeningSvc, loops := [LoopState.checked true (some 3) (some 2)],
    stopping := 0, shuttingDown := 0 }

/-- The one loop step during a stop of `readingSys` whose pending read fails
with the ALSA message. -/
def faultJoin : List (Nat × LoopInput) := [(0, badState)]

/-- The outcome of `StopDictation` on `readingSys` when the pending read
fails with a recoverable fault while the call waits: the loop closes the
stream and emits `speech-stopped`, then the call frees the recognizer and
emits `speech-stopped` again. -/
def faultStopOutcome : CallResult :=
  { sys := { svc := { ctx := some 0, isListening := false, model := some 1,
                      recognizer := none, stream := none, stopChan := some true },
             loops := [], stopping := 0, shuttingDown := 0 }
    trace := [Effect.lock, Effect.streamStop 3, Effect.unlock, Effect.wgWait, Effect.lock,
      Effect.recognizerFree 2, Effect.unlock, Effect.emit "speech-stopped" (Payload.flag true)]
    loopTrace := [Effect.streamRead 3 (some "File descriptor in bad state"), Effect.lock,
      Effect.streamStop 3, Effect.streamClose 3, Effect.unlock,
      Effect.emit "speech-stopped" (Payload.flag true), Effect.loopExit] }

/-! ## Lemmas on strings and events -/

theorem toLower_empty (tbl : Char → Char) : ToLower tbl "" = "" := rfl

theorem events_append (a b : List Effect) : events (a ++ b) = events a ++ events b := by
  induction a with
  | nil => rfl
  | cons e rest ih => cases e <;> simp [events, ih]

/-- C1: a final text whose trimmed, lower-cased form is "kırmızı kalem" or
"kirmizi kalem" makes `handleResult` emit exactly one event, the
`voice-command` with action tool-change, tool pencil, color #FF0000, and no
`speech-text` event. -/
theorem handleResult_red_pencil (tbl : Char → Char) (text : String)
    (h : ToLower tbl (TrimSpace text) = "kırmızı kalem" ∨
      ToLower tbl (TrimSpace text) = "kirmizi kalem") :
    handleResult tbl text =
        [Effect.emit "voice-command"
          (Payload.fields [("action", "tool-change"), ("tool", "pencil"), ("color", "#FF0000")])] ∧
      countEvent "voice-command" (handleResult tbl text) = 1 ∧
      countEvent "speech-text" (handleResult tbl text) = 0 := by
  have hne : TrimSpace text ≠ "" := by
    intro h0
    rw [h0, toLower_empty] at h
    revert h
    decide
  have heq : handleResult tbl text =
      [Effect.emit "voice-command"
        (Payload.fields [("action", "tool-change"), ("tool", "pencil"), ("color", "#FF0000")])] := by
    simp only [handleResult, if_neg hne, if_pos h]
  rw [heq]
  exact ⟨rfl, by decide, by decide⟩

theorem handleResult_red_pencil_witness :
    (ToLower turkishLower (TrimSpace "  KIRMIZI KALEM \n") = "kırmızı kalem" ∨
      ToLower turkishLower (TrimSpace "  KIRMIZI KALEM \n") = "kirmizi kalem") ∧
    handleResult turkishLower "  KIRMIZI KALEM \n" =
        [Effect.emit "voice-command"
          (Payload.fields [("action", "tool-change"), ("tool", "pencil"), ("color", "#FF0000")])] :=
  ⟨by decide, (handleResult_red_pencil turkishLower "  KIRMIZI KALEM \n" (by decide)).1⟩

/-- C2: a final text whose trimmed form is not empty and whose trimmed,
lower-cased form is none of the phrases of the command table makes
`handleResult` emit exactly one event, `speech-text` with the trimmed text as
payload, and no `voice-command` event. -/
theorem handleResult_plain_text (tbl : Char → Char) (text : String)
    (hne : TrimSpace text ≠ "")
    (hcmd : ToLower tbl (TrimSpace text) ∉ commandPhrases) :
    handleResult tbl text = [Effect.emit "speech-text" (Payload.text (TrimSpace text))] ∧
      countEvent "speech-text" (handleResult tbl text) = 1 ∧
      countEvent "voice-command" (handleResult tbl text) = 0 := by
  simp only [commandPhrases, List.mem_cons, List.mem_singleton, List.not_mem_nil, or_false,
    not_or] at hcmd
  obtain ⟨h1, h2, h3, h4, h5, h6⟩ := hcmd
  have heq : handleResult tbl text =
      [Effect.emit "speech-text" (Payload.text (TrimSpace text))] := by
    simp only [handleResult, if_neg hne, h1, h2, h3, h4, h5, h6, or_self, if_false]
  rw [heq]
  refine ⟨rfl, ?_, ?_⟩
  · simp [countEvent, events]
  · simp [countEvent, events]

theorem handleResult_plain_text_witness :
    TrimSpace " Merhaba " ≠ "" ∧ ToLower turkishLower (TrimSpace " Merhaba ") ∉ commandPhrases ∧
    handleResult turkishLower " Merhaba " = [Effect.emit "speech-text" (Payload.text "Merhaba")] :=
  ⟨by decide, by decide,
    (handleResult_plain_text turkishLower " Merhaba " (by decide) (by decide)).1⟩

theorem handleResult_blank (tbl : Char → Char) (text : String) (h : TrimSpace text = "") :
    handleResult tbl text = [] := by
  simp only [handleResult, h, if_true]

/-- C3: a recognition result with empty text is not forwarded.  Whatever the
session state, the step of the loop that feeds a frame to the recognizer emits
no event at all when the partial text is empty, and none when the final text
is empty or blank; over a whole iteration run without interruption there is
then no `speech-partial`, respectively no `speech-text` and no
`voice-command`; and `handleResult` itself emits nothing for a blank text. -/
theorem empty_text_not_forwarded (tbl : Char → Char) (io : LoopInput) (s : SpeechService) :
    (io.accept ≠ 1 → io.decoded = some "" →
      (∀ bytes, events (loopStep tbl io (.feeding bytes) s).trace = []) ∧
      countEvent "speech-partial" (processAudioIteration tbl io s).trace = 0) ∧
    (∀ text, io.accept = 1 → io.decoded = some text → TrimSpace text = "" →
      (∀ bytes, events (loopStep tbl io (.feeding bytes) s).trace = []) ∧
      countEvent "speech-text" (processAudioIteration tbl io s).trace = 0 ∧
      countEvent "voice-command" (processAudioIteration tbl io s).trace = 0) ∧
    (∀ text, TrimSpace text = "" → handleResult tbl text = []) := by
  refine ⟨?_, ?_, fun text h => handleResult_blank tbl text h⟩
  · intro ha hd
    constructor
    · intro bytes
      cases hr : s.recognizer <;> simp [loopStep, hr, ha, hd, events]
    · cases hl : s.isListening <;> cases hs : s.stream <;> cases hr : s.recognizer <;>
        cases hc : s.stopChan <;> cases he : io.readErr <;>
        simp [processAudioIteration, loopStep, hl, hs, hr, hc, he, ha, hd, countEvent, events]
      all_goals (cases hrec : recoverable ‹String› <;>
        simp [processAudioIteration, loopStep, hl, hs, hr, hc, he, ha, hd, hrec, countEvent, events])
  · intro text ha hd ht
    have hb := handleResult_blank tbl text ht
    constructor
    · intro bytes
      cases hr : s.recognizer <;> simp [loopStep, hr, ha, hd, hb, events]
    · cases hl : s.isListening <;> cases hs : s.stream <;> cases hr : s.recognizer <;>
        cases hc : s.stopChan <;> cases he : io.readErr <;>
        simp [processAudioIteration, loopStep, hl, hs, hr, hc, he, ha, hd, hb, countEvent, events]
      all_goals (cases hrec : recoverable ‹String› <;>
        simp [processAudioIteration, loopStep, hl, hs, hr, hc, he, ha, hd, hb, hrec, countEvent,
          events])

theorem empty_text_not_forwarded_witness :
    (processAudioIteration turkishLower silence listeningSvc).trace =
        [Effect.lock, Effect.unlock, Effect.streamRead 3 none, Effect.lock,
          Effect.acceptWaveform 2 [0, 0, 255, 255, 0, 1] 0, Effect.partialResult 2,
          Effect.unlock] ∧
      countEvent "speech-partial" (processAudioIteration turkishLower silence listeningSvc).trace
        = 0 ∧
      TrimSpace "  " = "" ∧
      countEvent "speech-text"
        (processAudioIteration turkishLower blankFinal listeningSvc).trace = 0 :=
  ⟨by decide,
    ((empty_text_not_forwarded turkishLower silence listeningSvc).1 (by decide) rfl).2,
    by decide,
    ((empty_text_not_forwarded turkishLower blankFinal listeningSvc).2.1 "  " (by decide) rfl
      (by decide)).2.1⟩

/-- C4: on a listening session `StartDictation` returns the error
"already listening", leaves the struct as it was (flag, stream, recognizer,
stop channel), does not launch a loop and emits no event; the system, with
its loops, is unchanged. -/
theorem start_while_listening (tbl : Char → Char) (env : StartEnv) (sys : System)
    (h : sys.svc.isListening = true) :
    (StartDictation env sys.svc).err = some StartError.alreadyListening ∧
      (StartDictation env sys.svc).err.map StartError.message = some "already listening" ∧
      (StartDictation env sys.svc).svc = sys.svc ∧
      (StartDictation env sys.svc).spawned = false ∧
      (StartDictation env sys.svc).trace = [Effect.lock, Effect.unlock] ∧
      events (StartDictation env sys.svc).trace = [] ∧
      step tbl (.start env) sys = some (sys, [Effect.lock, Effect.unlock]) := by
  have hs : StartDictation env sys.svc =
      { svc := sys.svc, err := some StartError.alreadyListening, spawned := false,
        trace := [Effect.lock, Effect.unlock] } := by
    simp [StartDictation, h]
  refine ⟨by rw [hs], by rw [hs]; rfl, by rw [hs], by rw [hs], by rw [hs], by rw [hs]; rfl, ?_⟩
  simp [step, hs]

theorem start_while_listening_witness :
    listeningSys.svc.isListening = true ∧
      (StartDictation envOk listeningSys.svc).err = some StartError.alreadyListening ∧
      step turkishLower (.start envOk) listeningSys =
        some (listeningSys, [Effect.lock, Effect.unlock]) :=
  ⟨rfl, (start_while_listening turkishLower envOk listeningSys rfl).1,
    (start_while_listening turkishLower envOk listeningSys rfl).2.2.2.2.2.2⟩

/-! ## What the loop leaves alone -/

theorem loopStep_frame (tbl : Char → Char) (io : LoopInput) (ls : LoopState)
    (s : SpeechService) : LoopFrame s (loopStep tbl io ls s).svc := by
  unfold LoopFrame
  cases ls with
  | top => simp [loopStep]
  | checked l st r =>
    cases l <;> cases st <;> cases r <;> cases hc : s.stopChan <;> simp [loopStep, hc]
  | reading st =>
    cases he : io.readErr with
    | none => simp [loopStep, he]
    | some msg => cases hr : recoverable msg <;> simp [loopStep, he, hr]
  | feeding bytes =>
    cases hr : s.recognizer with
    | none => simp [loopStep, hr]
    | some r =>
      by_cases ha : io.accept = 1 <;> cases hd : io.decoded <;> simp [loopStep, hr, ha, hd]

theorem loopStep_stream (tbl : Char → Char) (io : LoopInput) (ls : LoopState)
    (s : SpeechService) (h : ∀ msg, io.readErr = some msg → recoverable msg = false) :
    (loopStep tbl io ls s).svc.stream = s.stream := by
  cases ls with
  | top => simp [loopStep]
  | checked l st r =>
    cases l <;> cases st <;> cases r <;> cases hc : s.stopChan <;> simp [loopStep, hc]
  | reading st =>
    cases he : io.readErr with
    | none => simp [loopStep, he]
    | some msg => simp [loopStep, he, h msg he]
  | feeding bytes =>
    cases hr : s.recognizer with
    | none => simp [loopStep, hr]
    | some r =>
      by_cases ha : io.accept = 1 <;> cases hd : io.decoded <;> simp [loopStep, hr, ha, hd]

theorem LoopFrame.refl (s : SpeechService) : LoopFrame s s := ⟨rfl, rfl, rfl, id⟩

theorem LoopFrame.trans {a b c : SpeechService} (h1 : LoopFrame a b) (h2 : LoopFrame b c) :
    LoopFrame a c :=
  ⟨h2.1.trans h1.1, h2.2.1.trans h1.2.1, h2.2.2.1.trans h1.2.2.1, fun h => h1.2.2.2 (h2.2.2.2 h)⟩

theorem step_loop_frame (tbl : Char → Char) (i : Nat) (io : LoopInput) (sys sys1 : System)
    (tr : List Effect) (h : step tbl (.loop i io) sys = some (sys1, tr)) :
    LoopFrame sys.svc sys1.svc ∧ sys1.stopping = sys.stopping ∧
      sys1.shuttingDown = sys.shuttingDown ∧
      ((∀ msg, io.readErr = some msg → recoverable msg = false) →
        sys1.svc.stream = sys.svc.stream) := by
  simp only [step] at h
  cases hl : sys.loops[i]? with
  | none => simp [hl] at h
  | some ls =>
    simp only [hl] at h
    have hf := loopStep_frame tbl io ls sys.svc
    have hs := loopStep_stream tbl io ls sys.svc
    cases hn : (loopStep tbl io ls sys.svc).next with
    | none =>
      simp only [hn, Option.some.injEq, Prod.mk.injEq] at h
      obtain ⟨h1, _⟩ := h
      subst h1
      exact ⟨hf, rfl, rfl, hs⟩
    | some l1 =>
      simp only [hn, Option.some.injEq, Prod.mk.injEq] at h
      obtain ⟨h1, _⟩ := h
      subst h1
      exact ⟨hf, rfl, rfl, hs⟩

theorem run_loops_frame (tbl : Char → Char) (join : List (Nat × LoopInput)) :
    ∀ (sys sys1 : System) (tr : List Effect),
      run tbl (loopActions join) sys = some (sys1, tr) →
      LoopFrame sys.svc sys1.svc ∧ sys1.stopping = sys.stopping ∧
        sys1.shuttingDown = sys.shuttingDown ∧
        (NoDeviceFault join → sys1.svc.stream = sys.svc.stream) := by
  induction join with
  | nil =>
    intro sys sys1 tr h
    simp only [loopActions, List.map_nil, run, Option.some.injEq, Prod.mk.injEq] at h
    obtain ⟨h1, _⟩ := h
    subst h1
    exact ⟨LoopFrame.refl _, rfl, rfl, fun _ => rfl⟩
  | cons p rest ih =>
    intro sys sys1 tr h
    simp only [loopActions, List.map_cons, run] at h
    cases hs : step tbl (Action.loop p.1 p.2) sys with
    | none => simp [hs] at h
    | some q =>
      obtain ⟨sysa, ta⟩ := q
      simp only [hs] at h
      cases hr : run tbl (List.map (fun p => Action.loop p.1 p.2) rest) sysa with
      | none => simp [hr] at h
      | some q2 =>
        obtain ⟨sysb, tb⟩ := q2
        simp only [hr, Option.some.injEq, Prod.mk.injEq] at h
        obtain ⟨h1, _⟩ := h
        subst h1
        have ha := step_loop_frame tbl p.1 p.2 sys sysa ta hs
        have hb := ih sysa sysb tb hr
        refine ⟨ha.1.trans hb.1, hb.2.1.trans ha.2.1, hb.2.2.1.trans ha.2.2.1, ?_⟩
        intro hnf
        have hp : ∀ msg, p.2.readErr = some msg → recoverable msg = false :=
          fun msg hm => hnf p (List.mem_cons_self _ _) msg hm
        have hrest : NoDeviceFault rest := fun q hq => hnf q (List.mem_cons_of_mem _ hq)
        rw [hb.2.2.2 hrest, ha.2.2.2 hp]

/-! ## The controller calls -/

theorem startOpen_keeps (env : StartEnv) (s : SpeechService) (pre : List Effect) :
    (startOpen env s pre).svc.recognizer = s.recognizer ∧
      (startOpen env s pre).svc.model = s.model ∧
      (startOpen env s pre).svc.ctx = s.ctx ∧
      (∃ post, (startOpen env s pre).trace = pre ++ post) := by
  cases hs : s.stream <;> cases ho : env.open1 <;> cases h1 : env.start1 <;>
    cases h2 : env.open2 <;> cases h3 : env.start2 <;>
    simp [startOpen, startStream, startLaunch, hs, ho, h1, h2, h3]

theorem startOpen_outcome (env : StartEnv) (s : SpeechService) (pre : List Effect) :
    ((startOpen env s pre).err = none →
        (startOpen env s pre).spawned = true ∧ (startOpen env s pre).svc.isListening = true) ∧
      ((startOpen env s pre).err ≠ none →
        (startOpen env s pre).spawned = false ∧
          (startOpen env s pre).svc.isListening = s.isListening) := by
  cases hs : s.stream <;> cases ho : env.open1 <;> cases h1 : env.start1 <;>
    cases h2 : env.open2 <;> cases h3 : env.start2 <;>
    simp [startOpen, startStream, startLaunch, hs, ho, h1, h2, h3]

theorem startOpen_first_start (env : StartEnv) (s : SpeechService) (pre : List Effect)
    (h1 : env.start1 = true) :
    (∀ h, s.stream = some h →
        (startOpen env s pre).svc.stream = some h ∧
          (startOpen env s pre).trace = pre ++ [Effect.streamStart h true, Effect.spawn,
            Effect.emit "speech-started" (Payload.flag true), Effect.unlock] ∧
          (startOpen env s pre).err = none) ∧
      (∀ h, s.stream = none → env.open1 = some h →
        (startOpen env s pre).svc.stream = some h ∧
          (startOpen env s pre).trace = pre ++ [Effect.makeBuffer, Effect.openStream (some h),
            Effect.streamStart h true, Effect.spawn,
            Effect.emit "speech-started" (Payload.flag true), Effect.unlock] ∧
          (startOpen env s pre).err = none) := by
  constructor
  · intro h hs
    simp [startOpen, startStream, startLaunch, hs, h1]
  · intro h hs ho
    simp [startOpen, startStream, startLaunch, hs, h1, ho]

theorem stopDictation_idle (tbl : Char → Char) (join : List (Nat × LoopInput)) (sys : System)
    (hl : sys.svc.isListening = false) :
    StopDictation tbl join sys =
      some { sys := sys, trace := [Effect.lock, Effect.unlock], loopTrace := [] } := by
  simp [StopDictation, step, stopBegin, hl]

/-- The shape of a `StopDictation` that found the session listening: the
locked section, the loops until none is left, the second locked section. -/
theorem stopDictation_listening (tbl : Char → Char) (join : List (Nat × LoopInput))
    (sys : System) (r : CallResult) (hl : sys.svc.isListening = true)
    (h : StopDictation tbl join sys = some r) :
    ∃ mid tl,
      run tbl (loopActions join)
          { sys with svc := (stopBegin sys.svc).1, stopping := sys.stopping + 1 } =
        some (mid, tl) ∧
      mid.loops = [] ∧ mid.stopping = sys.stopping + 1 ∧
      mid.shuttingDown = sys.shuttingDown ∧
      LoopFrame (stopBegin sys.svc).1 mid.svc ∧
      (NoDeviceFault join → mid.svc.stream = sys.svc.stream) ∧
      r = { sys := { mid with svc := (stopFinish mid.svc).1, stopping := sys.stopping },
            trace := (stopBegin sys.svc).2.2 ++ (stopFinish mid.svc).2,
            loopTrace := tl } := by
  have hb : (stopBegin sys.svc).2.1 = true := by simp [stopBegin, hl]
  simp only [StopDictation, step, hl, hb, if_true] at h
  cases hr : run tbl (loopActions join)
      { sys with svc := (stopBegin sys.svc).1, stopping := sys.stopping + 1 } with
  | none => simp [hr] at h
  | some q =>
    obtain ⟨mid, tl⟩ := q
    simp only [hr] at h
    have hf := run_loops_frame tbl join _ mid tl hr
    by_cases hg : 0 < mid.stopping ∧ mid.loops = []
    · simp only [hg, and_self, if_true, Option.some.injEq] at h
      refine ⟨mid, tl, rfl, hg.2, hf.2.1, hf.2.2.1, hf.1, ?_, ?_⟩
      · intro hnf
        rw [hf.2.2.2 hnf]
        simp [stopBegin, hl]
      · rw [← h, hf.2.1]
        simp [hg.2]
    · simp [hg] at h

theorem freedRecognizers_append (a b : List Effect) :
    freedRecognizers (a ++ b) = freedRecognizers a ++ freedRecognizers b := by
  induction a with
  | nil => rfl
  | cons e rest ih => cases e <;> simp [freedRecognizers, ih]

theorem stopBegin_trace (s : SpeechService) :
    freedRecognizers (stopBegin s).2.2 = [] ∧ releasedHandles (stopBegin s).2.2 = [] ∧
      events (stopBegin s).2.2 = [] ∧ openedStreams (stopBegin s).2.2 = [] := by
  cases hl : s.isListening <;> cases hs : s.stream <;>
    simp [stopBegin, hl, hs, freedRecognizers, releasedHandles, events, openedStreams]

theorem stopBegin_keeps (s : SpeechService) :
    (stopBegin s).1.ctx = s.ctx ∧ (stopBegin s).1.model = s.model ∧
      (stopBegin s).1.recognizer = s.recognizer ∧ (stopBegin s).1.stream = s.stream ∧
      (stopBegin s).1.isListening = false := by
  cases hl : s.isListening <;> simp [stopBegin, hl]

theorem stopFinish_trace (s : SpeechService) :
    freedRecognizers (stopFinish s).2 = s.recognizer.toList ∧
      releasedHandles (stopFinish s).2 = s.recognizer.toList ∧
      events (stopFinish s).2 =
        (s.ctx.map (fun _ => ("speech-stopped", Payload.flag true))).toList ∧
      openedStreams (stopFinish s).2 = [] := by
  cases hr : s.recognizer <;> cases hc : s.ctx <;>
    simp [stopFinish, hr, hc, freedRecognizers, releasedHandles, events, openedStreams]

theorem start_creates (env : StartEnv) (s : SpeechService) (m fresh : Handle)
    (hl : s.isListening = false) (hm : s.model = some m) (hr : s.recognizer = none)
    (hn : env.newRecognizer = some fresh) :
    StartDictation env s =
      startOpen env { s with recognizer := some fresh }
        [Effect.lock, Effect.newRecognizer m (some fresh), Effect.setWords fresh] := by
  simp [StartDictation, hl, hm, hr, hn]

/-- C6: when `StopDictation` returns from a listening session the recognizer
field is nil, the recognizer the session held has been freed, once, and the
session is not listening; a `StartDictation` that then succeeds has called
`vosk.NewRecognizer` on the model and holds the recognizer that call
returned. -/
theorem stop_frees_recognizer (tbl : Char → Char) (join : List (Nat × LoopInput))
    (sys : System) (r : CallResult) (hl : sys.svc.isListening = true)
    (h : StopDictation tbl join sys = some r) :
    r.sys.svc.recognizer = none ∧ r.sys.svc.isListening = false ∧
      freedRecognizers r.trace = sys.svc.recognizer.toList ∧
      ∀ env, (StartDictation env r.sys.svc).err = none →
        ∃ m fresh, r.sys.svc.model = some m ∧ env.newRecognizer = some fresh ∧
          Effect.newRecognizer m (some fresh) ∈ (StartDictation env r.sys.svc).trace ∧
          (StartDictation env r.sys.svc).svc.recognizer = some fresh := by
  obtain ⟨mid, tl, _, _, _, _, hf, _, hr⟩ := stopDictation_listening tbl join sys r hl h
  have hk := stopBegin_keeps sys.svc
  have hrec : mid.svc.recognizer = sys.svc.recognizer := hf.2.2.1.trans hk.2.2.1
  have hlis : mid.svc.isListening = false := by
    cases hm : mid.svc.isListening with
    | false => rfl
    | true => have := hf.2.2.2 hm; rw [hk.2.2.2.2] at this; exact this.symm
  have h1 : r.sys.svc.recognizer = none := by rw [hr]; simp [stopFinish]
  have h2 : r.sys.svc.isListening = false := by rw [hr]; simpa [stopFinish] using hlis
  refine ⟨h1, h2, ?_, ?_⟩
  · rw [hr]
    simp only [freedRecognizers_append, (stopBegin_trace sys.svc).1, (stopFinish_trace mid.svc).1,
      hrec, List.nil_append]
  · intro env he
    cases hm : r.sys.svc.model with
    | none => simp [StartDictation, h1, h2, hm] at he
    | some m =>
      cases hn : env.newRecognizer with
      | none => simp [StartDictation, h1, h2, hm, hn] at he
      | some fresh =>
        refine ⟨m, fresh, rfl, rfl, ?_, ?_⟩
        · rw [start_creates env r.sys.svc m fresh h2 hm h1 hn]
          obtain ⟨post, hp⟩ := (startOpen_keeps env { r.sys.svc with recognizer := some fresh }
            [Effect.lock, Effect.newRecognizer m (some fresh), Effect.setWords fresh]).2.2.2
          rw [hp]
          simp
        · rw [start_creates env r.sys.svc m fresh h2 hm h1 hn]
          exact (startOpen_keeps env { r.sys.svc with recognizer := some fresh }
            [Effect.lock, Effect.newRecognizer m (some fresh), Effect.setWords fresh]).1

theorem stop_frees_recognizer_witness :
    listeningSys.svc.isListening = true ∧ listeningSys.svc.recognizer = some 2 ∧
      (StopDictation turkishLower quietJoin listeningSys).map (fun r => r.sys.svc) =
        some stoppedSvc ∧
      (StopDictation turkishLower quietJoin listeningSys).map
          (fun r => freedRecognizers r.trace) = some [2] ∧
      (StartDictation envAgain stoppedSvc).err = none ∧
      (StartDictation envAgain stoppedSvc).svc.recognizer = some 4 :=
  ⟨rfl, rfl, by decide,
    by
      cases hstop : StopDictation turkishLower quietJoin listeningSys with
      | none => exact absurd hstop (by decide)
      | some r =>
        have := (stop_frees_recognizer turkishLower quietJoin listeningSys r rfl hstop).2.2.1
        simpa using this,
    by decide, by decide⟩

theorem openedStreams_append (a b : List Effect) :
    openedStreams (a ++ b) = openedStreams a ++ openedStreams b := by
  induction a with
  | nil => rfl
  | cons e rest ih =>
    cases e with
    | openStream res => cases res <;> simp [openedStreams, ih]
    | _ => simp [openedStreams, ih]

theorem start_first_start (env : StartEnv) (s : SpeechService) (h : Handle)
    (hs : s.stream = some h) (h1 : env.start1 = true) :
    (StartDictation env s).svc.stream = some h ∧
      openedStreams (StartDictation env s).trace = [] ∧
      releasedHandles (StartDictation env s).trace = [] := by
  cases hl : s.isListening with
  | true => simp [StartDictation, hl, hs, openedStreams, releasedHandles]
  | false =>
    cases hm : s.model with
    | none => simp [StartDictation, hl, hm, hs, openedStreams, releasedHandles]
    | some m =>
      cases hr : s.recognizer with
      | some r =>
        have ho := (startOpen_first_start env s [Effect.lock] h1).1 h hs
        simp [StartDictation, hl, hm, hr, ho.1, ho.2.1, openedStreams, releasedHandles]
      | none =>
        cases hn : env.newRecognizer with
        | none => simp [StartDictation, hl, hm, hr, hn, hs, openedStreams, releasedHandles]
        | some fresh =>
          rw [start_creates env s m fresh hl hm hr hn]
          have ho := (startOpen_first_start env { s with recognizer := some fresh }
            [Effect.lock, Effect.newRecognizer m (some fresh), Effect.setWords fresh] h1).1 h hs
          rw [ho.1, ho.2.1]
          simp [openedStreams, releasedHandles]

theorem quietJoin_noDeviceFault : NoDeviceFault quietJoin := by
  intro p hp msg hm
  simp [quietJoin, silence] at hp
  subst hp
  simp at hm

/-- C7, as stated, fails: the listening session holds stream 3; the stop
runs with no device fault; the following `StartDictation` succeeds, but its
first `stream.Start()` fails, so it closes stream 3, opens stream 6 and the
session ends up with a different stream handle. -/
theorem stream_replaced_when_restart_fails :
    listeningSys.svc.isListening = true ∧ listeningSys.svc.stream = some 3 ∧
      NoDeviceFault quietJoin ∧
      (StopDictation turkishLower quietJoin listeningSys).map (fun r => r.sys.svc) =
        some stoppedSvc ∧
      (StartDictation envRestartFails stoppedSvc).err = none ∧
      (StartDictation envRestartFails stoppedSvc).svc.stream = some 6 ∧
      (StartDictation envRestartFails stoppedSvc).trace =
        [Effect.lock, Effect.newRecognizer 1 (some 4), Effect.setWords 4,
          Effect.streamStart 3 false, Effect.streamClose 3, Effect.openStream (some 6),
          Effect.streamStart 6 true, Effect.spawn,
          Effect.emit "speech-started" (Payload.flag true), Effect.unlock] := by
  exact ⟨rfl, rfl, quietJoin_noDeviceFault, by decide, by decide, by decide, by decide⟩

/-- C7, amended: for a listening session that holds a stream, a
`StopDictation` during which no read fails with a recoverable device fault
returns with the same stream handle, having stopped but not closed it; and
after the following `StartDictation`, if its first `stream.Start()` succeeds,
the session still holds that same handle and no stream was opened or
closed. -/
theorem stream_kept_across_stop_start (tbl : Char → Char) (join : List (Nat × LoopInput))
    (sys : System) (r : CallResult) (env : StartEnv) (h : Handle)
    (hl : sys.svc.isListening = true) (hs : sys.svc.stream = some h)
    (hnf : NoDeviceFault join) (hstop : StopDictation tbl join sys = some r)
    (h1 : env.start1 = true) :
    r.sys.svc.stream = some h ∧
      Effect.streamStop h ∈ r.trace ∧ Effect.streamClose h ∉ r.trace ∧
      openedStreams r.trace = [] ∧
      (StartDictation env r.sys.svc).svc.stream = some h ∧
      openedStreams (StartDictation env r.sys.svc).trace = [] ∧
      releasedHandles (StartDictation env r.sys.svc).trace = [] := by
  obtain ⟨mid, tl, _, _, _, _, hf, hstream, hr⟩ := stopDictation_listening tbl join sys r hl hstop
  have hmid : mid.svc.stream = some h := (hstream hnf).trans hs
  have hrs : r.sys.svc.stream = some h := by rw [hr]; simpa [stopFinish] using hmid
  have hst := start_first_start env r.sys.svc h hrs h1
  refine ⟨hrs, ?_, ?_, ?_, hst.1, hst.2.1, hst.2.2⟩
  · rw [hr]
    simp [stopBegin, hl, hs]
  · rw [hr]
    cases hrec : mid.svc.recognizer <;> cases hc : mid.svc.ctx <;>
      simp [stopBegin, stopFinish, hl, hs, hrec, hc]
  · rw [hr]
    simp only [openedStreams_append, (stopBegin_trace sys.svc).2.2.2,
      (stopFinish_trace mid.svc).2.2.2, List.append_nil]

theorem stream_kept_across_stop_start_witness :
    listeningSys.svc.isListening = true ∧ listeningSys.svc.stream = some 3 ∧
      NoDeviceFault quietJoin ∧ envAgain.start1 = true ∧
      (StopDictation turkishLower quietJoin listeningSys).map (fun r => r.sys.svc) =
        some stoppedSvc ∧
      (StartDictation envAgain stoppedSvc).err = none ∧
      (StartDictation envAgain stoppedSvc).svc.stream = some 3 := by
  refine ⟨rfl, rfl, quietJoin_noDeviceFault, rfl, by decide, by decide, ?_⟩
  cases hstop : StopDictation turkishLower quietJoin listeningSys with
  | none => exact absurd hstop (by decide)
  | some r =>
    have hsvc : r.sys.svc = stoppedSvc := by
      have : (StopDictation turkishLower quietJoin listeningSys).map (fun r => r.sys.svc) =
          some stoppedSvc := by decide
      rw [hstop] at this
      simpa using this
    have := (stream_kept_across_stop_start turkishLower quietJoin listeningSys r envAgain 3
      rfl rfl quietJoin_noDeviceFault hstop rfl).2.2.2.2.1
    rw [hsvc] at this
    exact this

theorem run_loops_none (tbl : Char → Char) (join : List (Nat × LoopInput)) (sys sys1 : System)
    (tr : List Effect) (hn : sys.loops = [])
    (h : run tbl (loopActions join) sys = some (sys1, tr)) :
    join = [] ∧ sys1 = sys ∧ tr = [] := by
  cases join with
  | nil =>
    simp only [loopActions, List.map_nil, run, Option.some.injEq, Prod.mk.injEq] at h
    exact ⟨rfl, h.1.symm, h.2.symm⟩
  | cons p rest => simp [loopActions, run, step, hn] at h

/-- The shape of a `Shutdown`: the first locked section, the loops until none
is left, the second locked section. -/
theorem shutdown_shape (tbl : Char → Char) (join : List (Nat × LoopInput))
    (sys : System) (r : CallResult) (h : Shutdown tbl join sys = some r) :
    ∃ mid tl,
      run tbl (loopActions join)
          { sys with svc := (shutdownBegin sys.svc).1, shuttingDown := sys.shuttingDown + 1 } =
        some (mid, tl) ∧
      mid.loops = [] ∧ mid.stopping = sys.stopping ∧
      LoopFrame (shutdownBegin sys.svc).1 mid.svc ∧
      r = { sys := { mid with svc := (shutdownFinish mid.svc).1,
                              shuttingDown := sys.shuttingDown },
            trace := (shutdownBegin sys.svc).2 ++ (shutdownFinish mid.svc).2,
            loopTrace := tl } := by
  simp only [Shutdown, step] at h
  cases hr : run tbl (loopActions join)
      { sys with svc := (shutdownBegin sys.svc).1, shuttingDown := sys.shuttingDown + 1 } with
  | none => simp [hr] at h
  | some q =>
    obtain ⟨mid, tl⟩ := q
    simp only [hr] at h
    have hf := run_loops_frame tbl join _ mid tl hr
    by_cases hg : 0 < mid.shuttingDown ∧ mid.loops = []
    · simp only [hg, and_self, if_true, Option.some.injEq] at h
      refine ⟨mid, tl, rfl, hg.2, hf.2.1, hf.1, ?_⟩
      rw [← h, hf.2.2.1]
      simp [hg.2]
    · simp [hg] at h

theorem shutdown_again (tbl : Char → Char) (sys : System)
    (h1 : sys.svc.isListening = false) (h2 : sys.svc.stream = none)
    (h3 : sys.svc.recognizer = none) (h4 : sys.svc.model = none) (h5 : sys.loops = []) :
    Shutdown tbl [] sys =
      some { sys := sys
             trace := [Effect.lock, Effect.unlock, Effect.wgWait, Effect.lock,
               Effect.terminate, Effect.unlock]
             loopTrace := [] } := by
  obtain ⟨svc, loops, stopping, shuttingDown⟩ := sys
  obtain ⟨c, l, m, rc, st, ch⟩ := svc
  simp only at h1 h2 h3 h4 h5
  subst h1 h2 h3 h4 h5
  simp [Shutdown, step, run, loopActions, shutdownBegin, shutdownFinish]

/-- C9: when `Shutdown` returns, whatever the state it was called in, the
session is not listening and holds no stream, no recognizer and no model; a
second `Shutdown` returns at once, leaves the system exactly as it is, and
neither frees nor closes any handle (its only adapter call is
`portaudio.Terminate`). -/
theorem shutdown_idempotent (tbl : Char → Char) (join : List (Nat × LoopInput))
    (sys : System) (r : CallResult) (h : Shutdown tbl join sys = some r) :
    r.sys.svc.isListening = false ∧ r.sys.svc.stream = none ∧
      r.sys.svc.recognizer = none ∧ r.sys.svc.model = none ∧
      Shutdown tbl [] r.sys =
        some { sys := r.sys
               trace := [Effect.lock, Effect.unlock, Effect.wgWait, Effect.lock,
                 Effect.terminate, Effect.unlock]
               loopTrace := [] } ∧
      ∀ join2 r2, Shutdown tbl join2 r.sys = some r2 →
        r2.sys = r.sys ∧ releasedHandles r2.trace = [] ∧ releasedHandles r2.loopTrace = [] ∧
          (∀ s, Effect.streamStop s ∉ r2.trace) := by
  obtain ⟨mid, tl, _, hloops, _, hf, hr⟩ := shutdown_shape tbl join sys r h
  have hlis : mid.svc.isListening = false := by
    cases hm : mid.svc.isListening with
    | false => rfl
    | true => exact absurd (hf.2.2.2 hm) (by simp [shutdownBegin])
  have h1 : r.sys.svc.isListening = false := by rw [hr]; simpa [shutdownFinish] using hlis
  have h2 : r.sys.svc.stream = none := by rw [hr]; simp [shutdownFinish]
  have h3 : r.sys.svc.recognizer = none := by rw [hr]; simp [shutdownFinish]
  have h4 : r.sys.svc.model = none := by rw [hr]; simp [shutdownFinish]
  have h5 : r.sys.loops = [] := by rw [hr]; exact hloops
  have hsecond := shutdown_again tbl r.sys h1 h2 h3 h4 h5
  refine ⟨h1, h2, h3, h4, hsecond, ?_⟩
  intro join2 r2 hq
  obtain ⟨mid2, tl2, hrun2, _, _, _, hr2⟩ := shutdown_shape tbl join2 r.sys r2 hq
  obtain ⟨hj, _, _⟩ := run_loops_none tbl join2
    { r.sys with svc := (shutdownBegin r.sys.svc).1, shuttingDown := r.sys.shuttingDown + 1 }
    mid2 tl2 h5 hrun2
  subst hj
  rw [hsecond] at hq
  simp only [Option.some.injEq] at hq
  subst hq
  simp [releasedHandles]


theorem shutdown_idempotent_witness :
    Shutdown turkishLower quietJoin listeningSys = some shutdownOutcome ∧
      shutDownSys.svc.model = none ∧
      Shutdown turkishLower [] shutDownSys =
        some { sys := shutDownSys
               trace := [Effect.lock, Effect.unlock, Effect.wgWait, Effect.lock,
                 Effect.terminate, Effect.unlock]
               loopTrace := [] } :=
  ⟨by decide,
    (shutdown_idempotent turkishLower quietJoin listeningSys shutdownOutcome (by decide)).2.2.2.1,
    (shutdown_idempotent turkishLower quietJoin listeningSys shutdownOutcome
      (by decide)).2.2.2.2.1⟩

/-! ## Invariants of the reachable states -/

theorem startOpen_err (env : StartEnv) (s : SpeechService) (pre : List Effect) :
    ∀ e, (startOpen env s pre).err = some e → e.atDevice = true := by
  cases hs : s.stream <;> cases ho : env.open1 <;> cases h1 : env.start1 <;>
    cases h2 : env.open2 <;> cases h3 : env.start2 <;>
    simp [startOpen, startStream, startLaunch, hs, ho, h1, h2, h3, StartError.atDevice]

/-- The three ways `StartDictation` ends: success; an error before anything
was touched; a device error, with the recognizer in place. -/
theorem start_cases (env : StartEnv) (s : SpeechService) :
    (StartDictation env s).svc.ctx = s.ctx ∧ (StartDictation env s).svc.model = s.model ∧
    (∀ h, s.recognizer = some h → (StartDictation env s).svc.recognizer = some h) ∧
    (((StartDictation env s).err = none ∧ (StartDictation env s).spawned = true ∧
        (StartDictation env s).svc.isListening = true ∧ s.isListening = false ∧
        (StartDictation env s).svc.recognizer ≠ none ∧ s.model ≠ none) ∨
      (∃ e, (StartDictation env s).err = some e ∧ e.atDevice = false ∧
        (StartDictation env s).spawned = false ∧ (StartDictation env s).svc = s) ∨
      (∃ e, (StartDictation env s).err = some e ∧ e.atDevice = true ∧
        (StartDictation env s).spawned = false ∧
        (StartDictation env s).svc.isListening = false ∧ s.isListening = false ∧
        (StartDictation env s).svc.recognizer ≠ none)) := by
  have key : ∀ (s1 : SpeechService) (pre : List Effect), s1.isListening = false →
      s1.recognizer ≠ none →
      (((startOpen env s1 pre).err = none ∧ (startOpen env s1 pre).spawned = true ∧
          (startOpen env s1 pre).svc.isListening = true ∧
          (startOpen env s1 pre).svc.recognizer ≠ none) ∨
        (∃ e, (startOpen env s1 pre).err = some e ∧ e.atDevice = true ∧
          (startOpen env s1 pre).spawned = false ∧
          (startOpen env s1 pre).svc.isListening = false ∧
          (startOpen env s1 pre).svc.recognizer ≠ none)) := by
    intro s1 pre h1 h3
    have hk := startOpen_keeps env s1 pre
    have ho := startOpen_outcome env s1 pre
    have he := startOpen_err env s1 pre
    cases hq : (startOpen env s1 pre).err with
    | none => exact Or.inl ⟨rfl, (ho.1 hq).1, (ho.1 hq).2, by rw [hk.1]; exact h3⟩
    | some e =>
      have hne : (startOpen env s1 pre).err ≠ none := by rw [hq]; simp
      exact Or.inr ⟨e, rfl, he e hq, (ho.2 hne).1, (ho.2 hne).2.trans h1,
        by rw [hk.1]; exact h3⟩
  cases hl : s.isListening with
  | true => simp [StartDictation, hl, StartError.atDevice]
  | false =>
    cases hm : s.model with
    | none => simp [StartDictation, hl, hm, StartError.atDevice]
    | some m =>
      cases hrec : s.recognizer with
      | some rc =>
        have hr : StartDictation env s = startOpen env s [Effect.lock] := by
          simp [StartDictation, hl, hm, hrec]
        have hk := startOpen_keeps env s [Effect.lock]
        rw [hr]
        refine ⟨hk.2.2.1, hk.2.1.trans hm, ?_, ?_⟩
        · intro h hh
          rw [hk.1, hrec]
          exact hh
        · rcases key s [Effect.lock] hl (by rw [hrec]; simp) with h | h
          · exact Or.inl ⟨h.1, h.2.1, h.2.2.1, rfl, h.2.2.2, by simp⟩
          · obtain ⟨e, h⟩ := h
            exact Or.inr (Or.inr ⟨e, h.1, h.2.1, h.2.2.1, h.2.2.2.1, rfl, h.2.2.2.2⟩)
      | none =>
        cases hn : env.newRecognizer with
        | none => simp [StartDictation, hl, hm, hrec, hn, StartError.atDevice]
        | some fresh =>
          rw [start_creates env s m fresh hl hm hrec hn]
          have hk := startOpen_keeps env { s with recognizer := some fresh }
            [Effect.lock, Effect.newRecognizer m (some fresh), Effect.setWords fresh]
          refine ⟨hk.2.2.1, hk.2.1.trans hm, ?_, ?_⟩
          · intro h hh
            simp at hh
          · rcases key { s with recognizer := some fresh }
              [Effect.lock, Effect.newRecognizer m (some fresh), Effect.setWords fresh] hl
              (by simp) with h | h
            · exact Or.inl ⟨h.1, h.2.1, h.2.2.1, rfl, h.2.2.2, by simp⟩
            · obtain ⟨e, h⟩ := h
              exact Or.inr (Or.inr ⟨e, h.1, h.2.1, h.2.2.1, h.2.2.2.1, rfl, h.2.2.2.2⟩)

theorem loopStep_listening (tbl : Char → Char) (io : LoopInput) (ls : LoopState)
    (s : SpeechService)
    (h : ∀ st msg, ls = LoopState.reading st → io.readErr = some msg → recoverable msg = false) :
    (loopStep tbl io ls s).svc.isListening = s.isListening := by
  cases ls with
  | top => simp [loopStep]
  | checked l st r =>
    cases l <;> cases st <;> cases r <;> cases hc : s.stopChan <;> simp [loopStep, hc]
  | reading st =>
    cases he : io.readErr with
    | none => simp [loopStep, he]
    | some msg => simp [loopStep, he, h st msg rfl he]
  | feeding bytes =>
    cases hr : s.recognizer with
    | none => simp [loopStep, hr]
    | some r =>
      by_cases ha : io.accept = 1 <;> cases hd : io.decoded <;> simp [loopStep, hr, ha, hd]

/-- The shape of a step of loop `i`. -/
theorem step_loop_shape (tbl : Char → Char) (i : Nat) (io : LoopInput) (sys sys1 : System)
    (tr : List Effect) (h : step tbl (.loop i io) sys = some (sys1, tr)) :
    ∃ ls, sys.loops[i]? = some ls ∧ sys1.svc = (loopStep tbl io ls sys.svc).svc ∧
      tr = (loopStep tbl io ls sys.svc).trace ∧ sys1.stopping = sys.stopping ∧
      sys1.shuttingDown = sys.shuttingDown ∧
      sys1.loops = (match (loopStep tbl io ls sys.svc).next with
        | some l1 => sys.loops.set i l1
        | none => sys.loops.eraseIdx i) := by
  simp only [step] at h
  cases hl : sys.loops[i]? with
  | none => simp [hl] at h
  | some ls =>
    simp only [hl] at h
    refine ⟨ls, rfl, ?_⟩
    cases hn : (loopStep tbl io ls sys.svc).next with
    | none =>
      simp only [hn, Option.some.injEq, Prod.mk.injEq] at h
      obtain ⟨h1, h2⟩ := h
      subst h1 h2
      exact ⟨rfl, rfl, rfl, rfl, rfl⟩
    | some l1 =>
      simp only [hn, Option.some.injEq, Prod.mk.injEq] at h
      obtain ⟨h1, h2⟩ := h
      subst h1 h2
      exact ⟨rfl, rfl, rfl, rfl, rfl⟩

theorem startup_keeps (ctx : Handle) (loaded : Option Handle) (s : SpeechService) :
    (Startup ctx loaded s).ctx = some ctx ∧ (Startup ctx loaded s).isListening = s.isListening ∧
      (Startup ctx loaded s).recognizer = s.recognizer ∧
      (s.model ≠ none → (Startup ctx loaded s).model ≠ none) := by
  cases loaded <;> simp [Startup]

/-- While a loop is alive the session holds a model and a recognizer. -/
theorem loops_have_engine (tbl : Char → Char) (allowed : Action → System → Prop)
    (sys : System) (h : ReachableVia tbl allowed sys) :
    sys.loops ≠ [] → sys.svc.model ≠ none ∧ sys.svc.recognizer ≠ none := by
  induction h with
  | init => simp [System.init]
  | @next sys0 sys1 a tr _ _ hstep ih =>
    cases a with
    | startup ctx loaded =>
      simp only [step, Option.some.injEq, Prod.mk.injEq] at hstep
      obtain ⟨h1, _⟩ := hstep
      subst h1
      intro hne
      have hk := startup_keeps ctx loaded sys0.svc
      exact ⟨hk.2.2.2 (ih hne).1, by simp only; rw [hk.2.2.1]; exact (ih hne).2⟩
    | start env =>
      simp only [step, Option.some.injEq, Prod.mk.injEq] at hstep
      obtain ⟨h1, _⟩ := hstep
      subst h1
      have hc := start_cases env sys0.svc
      rcases hc.2.2.2 with hs | ⟨e, _, _, hsp, hsvc⟩ | ⟨e, _, _, hsp, _, _, hrec⟩
      · intro _
        exact ⟨by simp only; rw [hc.2.1]; exact hs.2.2.2.2.2, hs.2.2.2.2.1⟩
      · simp only [hsp, hsvc]
        exact ih
      · simp only [hsp]
        intro hne
        exact ⟨by rw [hc.2.1]; exact (ih (by simpa using hne)).1, hrec⟩
    | stopBegin =>
      simp only [step, Option.some.injEq, Prod.mk.injEq] at hstep
      obtain ⟨h1, _⟩ := hstep
      subst h1
      have hk := stopBegin_keeps sys0.svc
      intro hne
      exact ⟨by simp only; rw [hk.2.1]; exact (ih hne).1,
        by simp only; rw [hk.2.2.1]; exact (ih hne).2⟩
    | stopFinish =>
      simp only [step] at hstep
      by_cases hg : 0 < sys0.stopping ∧ sys0.loops = []
      · simp only [hg, and_self, if_true, Option.some.injEq, Prod.mk.injEq] at hstep
        obtain ⟨h1, _⟩ := hstep
        subst h1
        intro hne
        exact absurd rfl hne
      · simp [hg] at hstep
    | shutdownBegin =>
      simp only [step, Option.some.injEq, Prod.mk.injEq] at hstep
      obtain ⟨h1, _⟩ := hstep
      subst h1
      exact ih
    | shutdownFinish =>
      simp only [step] at hstep
      by_cases hg : 0 < sys0.shuttingDown ∧ sys0.loops = []
      · simp only [hg, and_self, if_true, Option.some.injEq, Prod.mk.injEq] at hstep
        obtain ⟨h1, _⟩ := hstep
        subst h1
        intro hne
        exact absurd rfl hne
      · simp [hg] at hstep
    | loop i io =>
      obtain ⟨ls, hls, hsvc, _, _, _, _⟩ := step_loop_shape tbl i io sys0 sys1 tr hstep
      have hf := loopStep_frame tbl io ls sys0.svc
      have hne0 : sys0.loops ≠ [] := by
        intro h0
        rw [h0] at hls
        simp at hls
      intro _
      rw [hsvc, hf.2.1, hf.2.2.1]
      exact ih hne0

theorem reachable_run (tbl : Char → Char) (acts : List Action) :
    ∀ (sys sys1 : System), Reachable tbl sys →
      (run tbl acts sys).map Prod.fst = some sys1 → Reachable tbl sys1 := by
  induction acts with
  | nil =>
    intro sys sys1 hr h
    simp only [run, Option.map_some', Option.some.injEq] at h
    subst h
    exact hr
  | cons a rest ih =>
    intro sys sys1 hr h
    simp only [run] at h
    cases hs : step tbl a sys with
    | none => simp [hs] at h
    | some q =>
      obtain ⟨sysa, ta⟩ := q
      simp only [hs] at h
      have hra : Reachable tbl sysa := ReachableVia.next hr trivial hs
      apply ih sysa sys1 hra
      cases hq : run tbl rest sysa with
      | none => simp [hq] at h
      | some q2 =>
        obtain ⟨sysb, tb⟩ := q2
        simp only [hq, Option.map_some', Option.some.injEq] at h
        simp [h]

theorem listeningSys_reachable (tbl : Char → Char) (allowed : Action → System → Prop)
    (h1 : allowed (Action.startup 0 (some 1)) System.init)
    (h2 : allowed (Action.start envOk) startedUpSys) :
    ReachableVia tbl allowed listeningSys :=
  @ReachableVia.next tbl allowed startedUpSys listeningSys (Action.start envOk)
    [Effect.lock, Effect.newRecognizer 1 (some 2), Effect.setWords 2, Effect.makeBuffer,
      Effect.openStream (some 3), Effect.streamStart 3 true, Effect.spawn,
      Effect.emit "speech-started" (Payload.flag true), Effect.unlock]
    (@ReachableVia.next tbl allowed System.init startedUpSys (Action.startup 0 (some 1)) []
      ReachableVia.init h1 rfl)
    h2 (by simp [step, StartDictation, startOpen, startStream, startLaunch, startedUpSys, envOk,
      listeningSys, listeningSvc])

theorem readingSys_reachable : Reachable turkishLower readingSys :=
  reachable_run turkishLower
    [Action.startup 0 (some 1), Action.start envOk, Action.loop 0 silence, Action.loop 0 silence]
    System.init readingSys ReachableVia.init (by decide)

/-- C8: in any reachable state, when the `stream.Read()` of a loop fails with
a message that contains "bad state" or "underrun", that loop's step closes the
stream, sets the stream field to nil and the listening flag to false, emits
exactly one event, `speech-stopped`, and the loop returns; whatever the
adapter answers of a `StartDictation` made in the resulting state, if its
`OpenDefaultStream` and its `stream.Start()` succeed then it returns nil,
launches a loop, and the session listens on the stream just opened. -/
theorem device_fault_recovery (tbl : Char → Char) (sys : System) (i : Nat) (st : Handle)
    (io : LoopInput) (msg : String) (hreach : Reachable tbl sys)
    (hloop : sys.loops[i]? = some (LoopState.reading st)) (herr : io.readErr = some msg)
    (hfault : Contains msg "bad state" = true ∨ Contains msg "underrun" = true) :
    step tbl (.loop i io) sys =
        some ({ sys with svc := { sys.svc with stream := none, isListening := false },
                         loops := sys.loops.eraseIdx i },
          [Effect.streamRead st (some msg), Effect.lock, Effect.streamStop st,
            Effect.streamClose st, Effect.unlock,
            Effect.emit "speech-stopped" (Payload.flag true), Effect.loopExit]) ∧
      ∀ env fresh, env.open1 = some fresh → env.start1 = true →
        (StartDictation env { sys.svc with stream := none, isListening := false }).err = none ∧
        (StartDictation env { sys.svc with stream := none, isListening := false }).spawned
          = true ∧
        (StartDictation env { sys.svc with stream := none, isListening := false }).svc.stream
          = some fresh ∧
        (StartDictation env
          { sys.svc with stream := none, isListening := false }).svc.isListening = true ∧
        openedStreams
          (StartDictation env { sys.svc with stream := none, isListening := false }).trace
          = [fresh] := by
  have hrec : recoverable msg = true := by
    simp only [recoverable, Bool.or_eq_true]
    exact hfault
  have hne : sys.loops ≠ [] := by
    intro h0
    rw [h0] at hloop
    simp at hloop
  obtain ⟨hm, hr⟩ := loops_have_engine tbl _ sys hreach hne
  constructor
  · simp [step, hloop, loopStep, herr, hrec]
  · intro env fresh ho h1
    obtain ⟨m, hm⟩ := Option.ne_none_iff_exists'.mp hm
    obtain ⟨rc, hr⟩ := Option.ne_none_iff_exists'.mp hr
    have hst : StartDictation env { sys.svc with stream := none, isListening := false } =
        startOpen env { sys.svc with stream := none, isListening := false } [Effect.lock] := by
      simp [StartDictation, hm, hr]
    rw [hst]
    have hop := (startOpen_first_start env { sys.svc with stream := none, isListening := false }
      [Effect.lock] h1).2 fresh rfl ho
    have hout := startOpen_outcome env { sys.svc with stream := none, isListening := false }
      [Effect.lock]
    refine ⟨hop.2.2, (hout.1 hop.2.2).1, hop.1, (hout.1 hop.2.2).2, ?_⟩
    rw [hop.2.1]
    simp [openedStreams]

theorem device_fault_recovery_witness :
    readingSys.loops[0]? = some (LoopState.reading 3) ∧
      Contains "File descriptor in bad state" "bad state" = true ∧
      (step turkishLower (.loop 0 badState) readingSys).map Prod.fst = some faultedSys ∧
      (StartDictation envAgain faultedSys.svc).err = none ∧
      (StartDictation envAgain faultedSys.svc).svc.stream = some 5 :=
  ⟨rfl, by decide, by decide,
    ((device_fault_recovery turkishLower readingSys 0 3 badState "File descriptor in bad state"
      readingSys_reachable rfl rfl (Or.inl (by decide))).2 envAgain 5 rfl rfl).1,
    ((device_fault_recovery turkishLower readingSys 0 3 badState "File descriptor in bad state"
      readingSys_reachable rfl rfl (Or.inl (by decide))).2 envAgain 5 rfl rfl).2.2.1⟩

/-- With one controller call at a time: a session that holds a model has a
context, and a listening session has a context and a recognizer while no
`StopDictation` or `Shutdown` is under way. -/
theorem sequential_invariant (tbl : Char → Char) (sys : System)
    (h : ReachableVia tbl Sequential sys) :
    (sys.svc.model ≠ none → sys.svc.ctx ≠ none) ∧
      (sys.svc.isListening = true →
        sys.svc.ctx ≠ none ∧ sys.svc.recognizer ≠ none ∧ sys.stopping = 0 ∧
          sys.shuttingDown = 0) := by
  induction h with
  | init => simp [System.init, NewSpeechService]
  | @next sys0 sys1 a tr _ hallow hstep ih =>
    cases a with
    | startup ctx loaded =>
      simp only [step, Option.some.injEq, Prod.mk.injEq] at hstep
      obtain ⟨h1, _⟩ := hstep
      subst h1
      have hk := startup_keeps ctx loaded sys0.svc
      refine ⟨fun _ => by simp [hk.1], fun hl => ?_⟩
      simp only at hl
      rw [hk.2.1] at hl
      exact ⟨by simp [hk.1], by simp only; rw [hk.2.2.1]; exact (ih.2 hl).2.1,
        (ih.2 hl).2.2.1, (ih.2 hl).2.2.2⟩
    | start env =>
      simp only [step, Option.some.injEq, Prod.mk.injEq] at hstep
      obtain ⟨h1, _⟩ := hstep
      subst h1
      have hc := start_cases env sys0.svc
      have hctx : (StartDictation env sys0.svc).svc.model ≠ none →
          (StartDictation env sys0.svc).svc.ctx ≠ none := by
        rw [hc.1, hc.2.1]
        exact ih.1
      refine ⟨hctx, ?_⟩
      rcases hc.2.2.2 with hs | ⟨e, _, _, _, hsvc⟩ | ⟨e, _, _, _, hlis, _, _⟩
      · intro _
        refine ⟨?_, hs.2.2.2.2.1, hallow.1, hallow.2⟩
        apply hctx
        rw [hc.2.1]
        exact hs.2.2.2.2.2
      · simp only [hsvc]
        exact ih.2
      · intro hl
        simp only at hl
        rw [hlis] at hl
        exact absurd hl (by simp)
    | stopBegin =>
      simp only [step, Option.some.injEq, Prod.mk.injEq] at hstep
      obtain ⟨h1, _⟩ := hstep
      subst h1
      have hk := stopBegin_keeps sys0.svc
      refine ⟨by simp only; rw [hk.1, hk.2.1]; exact ih.1, fun hl => ?_⟩
      simp only at hl
      rw [hk.2.2.2.2] at hl
      exact absurd hl (by simp)
    | stopFinish =>
      simp only [step] at hstep
      by_cases hg : 0 < sys0.stopping ∧ sys0.loops = []
      · simp only [hg, and_self, if_true, Option.some.injEq, Prod.mk.injEq] at hstep
        obtain ⟨h1, _⟩ := hstep
        subst h1
        refine ⟨ih.1, fun hl => ?_⟩
        have hl0 : sys0.svc.isListening = true := hl
        have := (ih.2 hl0).2.2.1
        omega
      · simp [hg] at hstep
    | shutdownBegin =>
      simp only [step, Option.some.injEq, Prod.mk.injEq] at hstep
      obtain ⟨h1, _⟩ := hstep
      subst h1
      refine ⟨ih.1, fun hl => ?_⟩
      simp [shutdownBegin] at hl
    | shutdownFinish =>
      simp only [step] at hstep
      by_cases hg : 0 < sys0.shuttingDown ∧ sys0.loops = []
      · simp only [hg, and_self, if_true, Option.some.injEq, Prod.mk.injEq] at hstep
        obtain ⟨h1, _⟩ := hstep
        subst h1
        refine ⟨fun hm => absurd rfl hm, fun hl => ?_⟩
        have hl0 : sys0.svc.isListening = true := hl
        have := (ih.2 hl0).2.2.2
        omega
      · simp [hg] at hstep
    | loop i io =>
      obtain ⟨ls, _, hsvc, _, hs1, hs2, _⟩ := step_loop_shape tbl i io sys0 sys1 tr hstep
      have hf := loopStep_frame tbl io ls sys0.svc
      rw [hsvc, hf.1, hf.2.1, hf.2.2.1, hs1, hs2]
      exact ⟨ih.1, fun hl => ih.2 (hf.2.2.2 hl)⟩

theorem stop_result_idle (tbl : Char → Char) (join : List (Nat × LoopInput)) (sys : System)
    (r : CallResult) (hl : sys.svc.isListening = true)
    (h : StopDictation tbl join sys = some r) :
    r.sys.svc.isListening = false ∧ r.sys.svc.recognizer = none := by
  obtain ⟨mid, tl, _, _, _, _, hf, _, hr⟩ := stopDictation_listening tbl join sys r hl h
  have hk := stopBegin_keeps sys.svc
  have hlis : mid.svc.isListening = false := by
    cases hm : mid.svc.isListening with
    | false => rfl
    | true => have := hf.2.2.2 hm; rw [hk.2.2.2.2] at this; exact this.symm
  constructor
  · rw [hr]; simpa [stopFinish] using hlis
  · rw [hr]; simp [stopFinish]

/-- C10, as stated, fails.  After `Startup` and a `StartDictation` that
creates recognizer 2 and then fails to open the stream, the session holds the
recognizer, is not listening, and no stop (and no shutdown) is under way.  The
same holds after a recoverable device fault in the loop.  And between the two
locked sections of `Shutdown` the session holds the recognizer, is not
listening, and no stop is under way. -/
theorem recognizer_outlives_failed_start :
    ((run turkishLower [Action.startup 0 (some 1), Action.start envOpenFails]
          System.init).map Prod.fst = some failedStartSys ∧
        Reachable turkishLower failedStartSys ∧
        failedStartSys.svc.recognizer = some 2 ∧ failedStartSys.svc.isListening = false ∧
        failedStartSys.stopping = 0 ∧ failedStartSys.shuttingDown = 0) ∧
      ((run turkishLower [Action.startup 0 (some 1), Action.start envOk,
            Action.loop 0 silence, Action.loop 0 silence, Action.loop 0 badState]
          System.init).map Prod.fst = some faultedSys ∧
        Reachable turkishLower faultedSys ∧
        faultedSys.svc.recognizer = some 2 ∧ faultedSys.svc.isListening = false ∧
        faultedSys.stopping = 0 ∧ faultedSys.shuttingDown = 0) ∧
      ((run turkishLower [Action.startup 0 (some 1), Action.start envOk,
            Action.shutdownBegin] System.init).map Prod.fst = some shuttingDownSys ∧
        Reachable turkishLower shuttingDownSys ∧
        shuttingDownSys.svc.recognizer = some 2 ∧ shuttingDownSys.svc.isListening = false ∧
        shuttingDownSys.stopping = 0) :=
  ⟨⟨by decide, reachable_run turkishLower
      [Action.startup 0 (some 1), Action.start envOpenFails]
      System.init failedStartSys ReachableVia.init (by decide), rfl, rfl, rfl, rfl⟩,
    ⟨by decide, reachable_run turkishLower
      [Action.startup 0 (some 1), Action.start envOk, Action.loop 0 silence,
        Action.loop 0 silence, Action.loop 0 badState]
      System.init faultedSys ReachableVia.init (by decide), rfl, rfl, rfl, rfl⟩,
    ⟨by decide, reachable_run turkishLower
      [Action.startup 0 (some 1), Action.start envOk, Action.shutdownBegin]
      System.init shuttingDownSys ReachableVia.init (by decide), rfl, rfl, rfl⟩⟩

/-- C10, amended: in every state reached from a new session by steps of
`Startup`, `StartDictation`, `StopDictation`, `Shutdown` and the loops, in any
interleaving, in which no `StartDictation` returns a device error and no read
fails with a recoverable device fault, the recognizer is non-nil only while
the session is listening or a `StopDictation` or a `Shutdown` is between its
two locked sections. -/
theorem recognizer_only_while_active (tbl : Char → Char) (sys : System)
    (h : ReachableVia tbl NoDeviceFailure sys) (hrec : sys.svc.recognizer ≠ none) :
    sys.svc.isListening = true ∨ 0 < sys.stopping ∨ 0 < sys.shuttingDown := by
  induction h with
  | init => simp [System.init, NewSpeechService] at hrec
  | @next sys0 sys1 a tr _ hallow hstep ih =>
    cases a with
    | startup ctx loaded =>
      simp only [step, Option.some.injEq, Prod.mk.injEq] at hstep
      obtain ⟨h1, _⟩ := hstep
      subst h1
      have hk := startup_keeps ctx loaded sys0.svc
      simp only at hrec ⊢
      rw [hk.2.2.1] at hrec
      rw [hk.2.1]
      exact ih hrec
    | start env =>
      simp only [step, Option.some.injEq, Prod.mk.injEq] at hstep
      obtain ⟨h1, _⟩ := hstep
      subst h1
      have hc := start_cases env sys0.svc
      rcases hc.2.2.2 with hs | ⟨e, _, _, _, hsvc⟩ | ⟨e, he, hdev, _⟩
      · exact Or.inl hs.2.2.1
      · simp only [hsvc] at hrec ⊢
        exact ih hrec
      · have := hallow e he
        rw [hdev] at this
        exact absurd this (by simp)
    | stopBegin =>
      simp only [step, Option.some.injEq, Prod.mk.injEq] at hstep
      obtain ⟨h1, _⟩ := hstep
      subst h1
      cases hl : sys0.svc.isListening with
      | true =>
        right; left
        simp [stopBegin, hl]
      | false =>
        have hsame : stopBegin sys0.svc = (sys0.svc, false, [Effect.lock, Effect.unlock]) := by
          simp [stopBegin, hl]
        simp only [hsame] at hrec ⊢
        simpa using ih hrec
    | stopFinish =>
      simp only [step] at hstep
      by_cases hg : 0 < sys0.stopping ∧ sys0.loops = []
      · simp only [hg, and_self, if_true, Option.some.injEq, Prod.mk.injEq] at hstep
        obtain ⟨h1, _⟩ := hstep
        subst h1
        simp [stopFinish] at hrec
      · simp [hg] at hstep
    | shutdownBegin =>
      simp only [step, Option.some.injEq, Prod.mk.injEq] at hstep
      obtain ⟨h1, _⟩ := hstep
      subst h1
      right; right
      simp
    | shutdownFinish =>
      simp only [step] at hstep
      by_cases hg : 0 < sys0.shuttingDown ∧ sys0.loops = []
      · simp only [hg, and_self, if_true, Option.some.injEq, Prod.mk.injEq] at hstep
        obtain ⟨h1, _⟩ := hstep
        subst h1
        simp [shutdownFinish] at hrec
      · simp [hg] at hstep
    | loop i io =>
      obtain ⟨ls, hls, hsvc, _, hs1, hs2, _⟩ := step_loop_shape tbl i io sys0 sys1 tr hstep
      have hf := loopStep_frame tbl io ls sys0.svc
      have hlis := loopStep_listening tbl io ls sys0.svc
        (fun st msg hst hm => hallow st msg (by rw [hls, hst]) hm)
      rw [hsvc, hf.2.2.1] at hrec
      rw [hsvc, hlis, hs1, hs2]
      exact ih hrec

theorem recognizer_only_while_active_witness :
    stoppingSys.svc.recognizer ≠ none ∧ stoppingSys.svc.isListening = false ∧
      (stoppingSys.svc.isListening = true ∨ 0 < stoppingSys.stopping ∨
        0 < stoppingSys.shuttingDown) :=
  ⟨by decide, rfl,
    recognizer_only_while_active turkishLower stoppingSys
      (@ReachableVia.next turkishLower NoDeviceFailure listeningSys stoppingSys Action.stopBegin
        [Effect.lock, Effect.streamStop 3, Effect.unlock]
        (listeningSys_reachable turkishLower NoDeviceFailure trivial
          (fun e he => by
            have hnone : (StartDictation envOk startedUpSys.svc).err = none := by decide
            rw [hnone] at he
            exact absurd he (by simp)))
        trivial (by decide))
      (by decide)⟩


/-! ## The sample encoding -/

theorem encodeSamples_length (samples : List Int) :
    (encodeSamples samples).length = 2 * samples.length := by
  induction samples with
  | nil => rfl
  | cons s rest ih => simp [encodeSamples, ih]; omega

theorem encodeSamples_bytes (samples : List Int) :
    ∀ (i : Nat) (s : Int), samples[i]? = some s →
      (encodeSamples samples)[2 * i]? = some (s % 65536 % 256).toNat ∧
        (encodeSamples samples)[2 * i + 1]? = some (s % 65536 / 256).toNat := by
  induction samples with
  | nil => intro i s h; simp at h
  | cons a rest ih =>
    intro i s h
    cases i with
    | zero =>
      simp only [List.getElem?_cons_zero, Option.some.injEq] at h
      subst h
      have h1 : a % 65536 % 256 = a % 256 := by omega
      have h2 : a % 65536 / 256 = a / 256 % 256 := by omega
      simp [encodeSamples, h1, h2]
    | succ j =>
      simp only [List.getElem?_cons_succ] at h
      have hj := ih j s h
      have e1 : 2 * (j + 1) = (2 * j + 1) + 1 := by omega
      have e2 : 2 * (j + 1) + 1 = (2 * j + 1 + 1) + 1 := by omega
      constructor
      · rw [e1]
        simp only [encodeSamples, List.getElem?_cons_succ]
        exact hj.1
      · rw [e2]
        simp only [encodeSamples, List.getElem?_cons_succ]
        exact hj.2

theorem encodeSamples_lt (samples : List Int) : ∀ b ∈ encodeSamples samples, b < 256 := by
  induction samples with
  | nil => intro b h; simp [encodeSamples] at h
  | cons a rest ih =>
    intro b h
    simp only [encodeSamples, List.mem_cons] at h
    rcases h with h | h | h
    · subst h; omega
    · subst h; omega
    · exact ih b h

theorem decode_encode (samples : List Int)
    (hrange : ∀ s ∈ samples, -32768 ≤ s ∧ s ≤ 32767) :
    decodeSamples (encodeSamples samples) = samples := by
  induction samples with
  | nil => rfl
  | cons a rest ih =>
    have ha := hrange a (List.mem_cons_self _ _)
    have hrest := ih (fun s hs => hrange s (List.mem_cons_of_mem _ hs))
    simp only [encodeSamples, decodeSamples, hrest, List.cons.injEq, and_true]
    split_ifs with hlt <;> omega

/-- C13: for every buffer of signed 16-bit samples, a successful read hands
its two-byte-per-sample encoding to the step that feeds the recognizer, and
those are the bytes `AcceptWaveform` receives; the encoding has twice the
length of the buffer, byte 2i is the low and byte 2i+1 the high eight bits of
the two's-complement pattern of sample i, and decoding it as little-endian
16-bit samples gives the buffer back. -/
theorem encodeSamples_little_endian (tbl : Char → Char) (samples : List Int)
    (hrange : ∀ s ∈ samples, -32768 ≤ s ∧ s ≤ 32767) :
    (∀ io st svc, io.readErr = none → io.samples = samples →
        (loopStep tbl io (.reading st) svc).next =
          some (LoopState.feeding (encodeSamples samples))) ∧
      (∀ io svc r, svc.recognizer = some r →
        Effect.acceptWaveform r (encodeSamples samples) io.accept ∈
          (loopStep tbl io (.feeding (encodeSamples samples)) svc).trace) ∧
      (encodeSamples samples).length = 2 * samples.length ∧
      (∀ i s, samples[i]? = some s →
        (encodeSamples samples)[2 * i]? = some (s % 65536 % 256).toNat ∧
          (encodeSamples samples)[2 * i + 1]? = some (s % 65536 / 256).toNat) ∧
      (∀ b ∈ encodeSamples samples, b < 256) ∧
      decodeSamples (encodeSamples samples) = samples := by
  refine ⟨?_, ?_, encodeSamples_length samples, encodeSamples_bytes samples,
    encodeSamples_lt samples, decode_encode samples hrange⟩
  · intro io st svc he hs
    simp [loopStep, he, hs]
  · intro io svc r hr
    by_cases ha : io.accept = 1 <;> cases hd : io.decoded <;> simp [loopStep, hr, ha, hd]

theorem encodeSamples_little_endian_witness :
    (∀ s ∈ [0, -1, 256, -32768, 32767], -32768 ≤ s ∧ s ≤ (32767 : Int)) ∧
      encodeSamples [0, -1, 256, -32768, 32767] = [0, 0, 255, 255, 0, 1, 0, 128, 255, 127] ∧
      decodeSamples (encodeSamples [0, -1, 256, -32768, 32767]) =
        [0, -1, 256, -32768, 32767] :=
  ⟨by decide, by decide,
    (encodeSamples_little_endian turkishLower [0, -1, 256, -32768, 32767]
      (by decide)).2.2.2.2.2⟩

/-! ## The lock discipline -/

theorem lockAfter_append (a b : List Effect) :
    ∀ held, lockAfter held (a ++ b) = lockAfter (lockAfter held a) b := by
  induction a with
  | nil => intro held; rfl
  | cons e rest ih => intro held; cases e <;> simp [lockAfter, ih]

theorem underLock_append (a b : List Effect) :
    ∀ held, underLock held (a ++ b) = underLock held a ++ underLock (lockAfter held a) b := by
  induction a with
  | nil => intro held; rfl
  | cons e rest ih =>
    intro held
    cases e <;> cases held <;> simp [underLock, lockAfter, ih]

theorem reads_append (a b : List Effect) : reads (a ++ b) = reads a ++ reads b := by
  induction a with
  | nil => rfl
  | cons e rest ih => cases e <;> simp [reads, ih]

theorem EmitsUnlocked.append {a b : List Effect} (ha : EmitsUnlocked a)
    (hb : EmitsUnlocked b) : EmitsUnlocked (a ++ b) := by
  obtain ⟨a1, a2, a3⟩ := ha
  obtain ⟨b1, b2, b3⟩ := hb
  refine ⟨?_, ?_, ?_⟩
  · rw [lockAfter_append, a1, b1]
  · rw [underLock_append, a1, events_append, a2, b2]
    rfl
  · rw [underLock_append, a1, reads_append, a3, b3]
    rfl

theorem handleResult_cases (tbl : Char → Char) (text : String) :
    handleResult tbl text = [] ∨ ∃ n p, handleResult tbl text = [Effect.emit n p] := by
  unfold handleResult
  simp only
  split_ifs
  · exact Or.inl rfl
  all_goals exact Or.inr ⟨_, _, rfl⟩

theorem handleResult_emitsUnlocked (tbl : Char → Char) (text : String) :
    EmitsUnlocked (handleResult tbl text) := by
  rcases handleResult_cases tbl text with h | ⟨n, p, h⟩ <;> rw [h] <;>
    simp [EmitsUnlocked, lockAfter, underLock, events, reads]

theorem loopStep_emitsUnlocked (tbl : Char → Char) (io : LoopInput) (ls : LoopState)
    (s : SpeechService) : EmitsUnlocked (loopStep tbl io ls s).trace := by
  cases ls with
  | top => simp [loopStep, EmitsUnlocked, lockAfter, underLock, events, reads]
  | checked l st r =>
    cases l <;> cases st <;> cases r <;> cases hc : s.stopChan <;>
      simp [loopStep, hc, EmitsUnlocked, lockAfter, underLock, events, reads]
  | reading st =>
    cases he : io.readErr with
    | none => simp [loopStep, he, EmitsUnlocked, lockAfter, underLock, events, reads]
    | some msg =>
      cases hr : recoverable msg <;>
        simp [loopStep, he, hr, EmitsUnlocked, lockAfter, underLock, events, reads]
  | feeding bytes =>
    cases hr : s.recognizer with
    | none => simp [loopStep, hr, EmitsUnlocked, lockAfter, underLock, events, reads]
    | some r =>
      have hpre1 : EmitsUnlocked [Effect.lock, Effect.acceptWaveform r bytes io.accept,
          Effect.result r, Effect.unlock] := by
        simp [EmitsUnlocked, lockAfter, underLock, events, reads]
      have hpre2 : EmitsUnlocked [Effect.lock, Effect.acceptWaveform r bytes io.accept,
          Effect.partialResult r, Effect.unlock] := by
        simp [EmitsUnlocked, lockAfter, underLock, events, reads]
      have hnil : EmitsUnlocked [] := by
        simp [EmitsUnlocked, lockAfter, underLock, events, reads]
      by_cases ha : io.accept = 1
      · cases hd : io.decoded with
        | none => simpa [loopStep, hr, ha, hd] using hpre1
        | some text =>
          by_cases ht : text = ""
          · simpa [loopStep, hr, ha, hd, ht] using hpre1
          · have := hpre1.append (handleResult_emitsUnlocked tbl text)
            simpa [loopStep, hr, ha, hd, ht] using this
      · cases hd : io.decoded with
        | none => simpa [loopStep, hr, ha, hd] using hpre2
        | some text =>
          by_cases ht : text = ""
          · simpa [loopStep, hr, ha, hd, ht] using hpre2
          · have hem : EmitsUnlocked [Effect.emit "speech-partial" (Payload.text text)] := by
              simp [EmitsUnlocked, lockAfter, underLock, events, reads]
            have := hpre2.append hem
            simpa [loopStep, hr, ha, hd, ht] using this

theorem iteration_emitsUnlocked (tbl : Char → Char) (io : LoopInput) (s : SpeechService) :
    EmitsUnlocked (processAudioIteration tbl io s).trace := by
  have h1 := loopStep_emitsUnlocked tbl io .top s
  unfold processAudioIteration
  simp only
  cases hn1 : (loopStep tbl io .top s).next with
  | none => simpa using h1
  | some l2 =>
    have h2 := loopStep_emitsUnlocked tbl io l2 (loopStep tbl io .top s).svc
    simp only
    cases hn2 : (loopStep tbl io l2 (loopStep tbl io .top s).svc).next with
    | none => simpa using h1.append h2
    | some l3 =>
      have h3 := loopStep_emitsUnlocked tbl io l3
        (loopStep tbl io l2 (loopStep tbl io .top s).svc).svc
      simp only
      cases hn3 : (loopStep tbl io l3
          (loopStep tbl io l2 (loopStep tbl io .top s).svc).svc).next with
      | none => simpa using (h1.append h2).append h3
      | some l4 =>
        have h4 := loopStep_emitsUnlocked tbl io l4
          (loopStep tbl io l3 (loopStep tbl io l2 (loopStep tbl io .top s).svc).svc).svc
        simpa using ((h1.append h2).append h3).append h4

theorem stopBegin_emitsUnlocked (s : SpeechService) : EmitsUnlocked (stopBegin s).2.2 := by
  cases hl : s.isListening <;> cases hs : s.stream <;>
    simp [stopBegin, hl, hs, EmitsUnlocked, lockAfter, underLock, events, reads]

theorem stopFinish_emitsUnlocked (s : SpeechService) : EmitsUnlocked (stopFinish s).2 := by
  cases hr : s.recognizer <;> cases hc : s.ctx <;>
    simp [stopFinish, hr, hc, EmitsUnlocked, lockAfter, underLock, events, reads]

/-- C12, as stated, fails.  `StartDictation` defers its unlock: on a first
start it creates the recognizer, opens and starts the stream and emits
`speech-started`, all with `mu` held.  `StopDictation` stops the stream with
`mu` held, and the loop feeds the recognizer and fetches its result with `mu`
held. -/
theorem adapter_calls_under_lock :
    underLock false (StartDictation envOk startedUpSys.svc).trace =
        [Effect.newRecognizer 1 (some 2), Effect.setWords 2, Effect.makeBuffer,
          Effect.openStream (some 3), Effect.streamStart 3 true, Effect.spawn,
          Effect.emit "speech-started" (Payload.flag true)] ∧
      events (underLock false (StartDictation envOk startedUpSys.svc).trace) =
        [("speech-started", Payload.flag true)] ∧
      underLock false (stopBegin listeningSvc).2.2 = [Effect.streamStop 3] ∧
      underLock false (loopStep turkishLower silence (.feeding [0, 0]) listeningSvc).trace =
        [Effect.acceptWaveform 2 [0, 0] 0, Effect.partialResult 2] := by
  refine ⟨by decide, by decide, by decide, by decide⟩

/-- C12, amended: in a `StopDictation` that returns, and in every step and
every iteration of the processing loop, whatever the state and the adapter
answers, `mu` is not held at the moment an event is emitted; and in the loop
it is not held at the moment the device read is made. -/
theorem events_emitted_unlocked (tbl : Char → Char) (join : List (Nat × LoopInput))
    (sys : System) (r : CallResult) (h : StopDictation tbl join sys = some r) :
    events (underLock false r.trace) = [] ∧
      (∀ io ls s, events (underLock false (loopStep tbl io ls s).trace) = [] ∧
        reads (underLock false (loopStep tbl io ls s).trace) = []) ∧
      (∀ io s, events (underLock false (processAudioIteration tbl io s).trace) = [] ∧
        reads (underLock false (processAudioIteration tbl io s).trace) = []) := by
  refine ⟨?_, fun io ls s => (loopStep_emitsUnlocked tbl io ls s).2,
    fun io s => (iteration_emitsUnlocked tbl io s).2⟩
  cases hl : sys.svc.isListening with
  | false =>
    rw [stopDictation_idle tbl join sys hl] at h
    simp only [Option.some.injEq] at h
    subst h
    simp [underLock, events]
  | true =>
    obtain ⟨mid, tl, _, _, _, _, _, _, hr⟩ := stopDictation_listening tbl join sys r hl h
    rw [hr]
    exact ((stopBegin_emitsUnlocked sys.svc).append (stopFinish_emitsUnlocked mid.svc)).2.1

theorem events_emitted_unlocked_witness :
    StopDictation turkishLower quietJoin listeningSys = some stopOutcome ∧
      events stopOutcome.trace = [("speech-stopped", Payload.flag true)] ∧
      underLock false stopOutcome.trace = [Effect.streamStop 3, Effect.recognizerFree 2] ∧
      events (underLock false stopOutcome.trace) = [] :=
  ⟨by decide, by decide, by decide,
    (events_emitted_unlocked turkishLower quietJoin listeningSys stopOutcome (by decide)).1⟩

/-- C11: the code breaks it.  After `Startup` and a successful
`StartDictation`, the first locked section of `StopDictation` clears the flag
and releases `mu`; a `StartDictation` made before the loop has returned passes
the test of the flag, drains the stop signal and launches a second loop.  Both
loops then pass their test and sit in `stream.Read()` on the same stream while
the stop still waits.  The same happens with `Shutdown` in place of
`StopDictation`. -/
theorem second_loop_during_stop :
    ((run turkishLower [Action.startup 0 (some 1), Action.start envOk, Action.stopBegin,
          Action.start envAgain] System.init).map Prod.fst = some twoLoopsSys ∧
        twoLoopsSys.loops.length = 2 ∧ twoLoopsSys.stopping = 1) ∧
      ((run turkishLower [Action.startup 0 (some 1), Action.start envOk, Action.stopBegin,
          Action.start envAgain, Action.loop 0 silence, Action.loop 0 silence,
          Action.loop 1 silence, Action.loop 1 silence] System.init).map Prod.fst =
          some twoReadersSys ∧
        twoReadersSys.loops = [LoopState.reading 3, LoopState.reading 3]) ∧
      ((run turkishLower [Action.startup 0 (some 1), Action.start envOk, Action.shutdownBegin,
          Action.start envAgain] System.init).map Prod.fst = some twoLoopsShutdownSys ∧
        twoLoopsShutdownSys.loops.length = 2) ∧
      (StartDictation envAgain
          (stopBegin listeningSvc).1).err = none ∧
      (StartDictation envAgain (stopBegin listeningSvc).1).spawned = true := by
  refine ⟨⟨by decide, rfl, rfl⟩, ⟨by decide, rfl⟩, ⟨by decide, rfl⟩, by decide, by decide⟩

theorem loopStep_flag_or_exit (tbl : Char → Char) (io : LoopInput) (ls : LoopState)
    (s : SpeechService) :
    (loopStep tbl io ls s).svc.isListening = s.isListening ∨
      (loopStep tbl io ls s).next = none := by
  cases ls with
  | top => simp [loopStep]
  | checked l st r =>
    cases l <;> cases st <;> cases r <;> cases hc : s.stopChan <;> simp [loopStep, hc]
  | reading st =>
    cases he : io.readErr with
    | none => simp [loopStep, he]
    | some msg => cases hr : recoverable msg <;> simp [loopStep, he, hr]
  | feeding bytes =>
    cases hr : s.recognizer with
    | none => simp [loopStep, hr]
    | some r =>
      by_cases ha : io.accept = 1 <;> cases hd : io.decoded <;> simp [loopStep, hr, ha, hd]

/-- With one controller call at a time the test of the flag does its work:
there is never more than one loop, and a loop is alive only while the session
is listening or a `StopDictation` or `Shutdown` waits for it. -/
theorem sequential_single_loop (tbl : Char → Char) (sys : System)
    (h : ReachableVia tbl Sequential sys) :
    sys.loops.length ≤ 1 ∧
      (sys.loops ≠ [] →
        sys.svc.isListening = true ∨ 0 < sys.stopping ∨ 0 < sys.shuttingDown) := by
  induction h with
  | init => simp [System.init]
  | @next sys0 sys1 a tr _ hallow hstep ih =>
    cases a with
    | startup ctx loaded =>
      simp only [step, Option.some.injEq, Prod.mk.injEq] at hstep
      obtain ⟨h1, _⟩ := hstep
      subst h1
      have hk := startup_keeps ctx loaded sys0.svc
      refine ⟨ih.1, fun hne => ?_⟩
      simp only
      rw [hk.2.1]
      exact ih.2 hne
    | start env =>
      simp only [step, Option.some.injEq, Prod.mk.injEq] at hstep
      obtain ⟨h1, _⟩ := hstep
      subst h1
      have hc := start_cases env sys0.svc
      have hidle : sys0.svc.isListening = false → sys0.loops = [] := by
        intro hl
        by_contra hne
        rcases ih.2 hne with h | h | h
        · rw [hl] at h; exact absurd h (by simp)
        · have := hallow.1; omega
        · have := hallow.2; omega
      rcases hc.2.2.2 with hs | ⟨e, _, _, hsp, hsvc⟩ | ⟨e, _, _, hsp, _, hl0, _⟩
      · simp only [hs.2.1, if_true]
        rw [hidle hs.2.2.2.1]
        exact ⟨by simp, fun _ => Or.inl hs.2.2.1⟩
      · simp only [hsp, hsvc]
        exact ih
      · simp only [hsp]
        refine ⟨ih.1, fun hne => ?_⟩
        exact absurd (hidle hl0) (by simpa using hne)
    | stopBegin =>
      simp only [step, Option.some.injEq, Prod.mk.injEq] at hstep
      obtain ⟨h1, _⟩ := hstep
      subst h1
      refine ⟨ih.1, fun hne => ?_⟩
      cases hl : sys0.svc.isListening with
      | true =>
        right; left
        simp [stopBegin, hl]
      | false =>
        have hsame : stopBegin sys0.svc = (sys0.svc, false, [Effect.lock, Effect.unlock]) := by
          simp [stopBegin, hl]
        simp only [hsame]
        simpa using ih.2 hne
    | stopFinish =>
      simp only [step] at hstep
      by_cases hg : 0 < sys0.stopping ∧ sys0.loops = []
      · simp only [hg, and_self, if_true, Option.some.injEq, Prod.mk.injEq] at hstep
        obtain ⟨h1, _⟩ := hstep
        subst h1
        exact ⟨by simp, fun hne => absurd rfl hne⟩
      · simp [hg] at hstep
    | shutdownBegin =>
      simp only [step, Option.some.injEq, Prod.mk.injEq] at hstep
      obtain ⟨h1, _⟩ := hstep
      subst h1
      exact ⟨ih.1, fun _ => Or.inr (Or.inr (by simp))⟩
    | shutdownFinish =>
      simp only [step] at hstep
      by_cases hg : 0 < sys0.shuttingDown ∧ sys0.loops = []
      · simp only [hg, and_self, if_true, Option.some.injEq, Prod.mk.injEq] at hstep
        obtain ⟨h1, _⟩ := hstep
        subst h1
        exact ⟨by simp, fun hne => absurd rfl hne⟩
      · simp [hg] at hstep
    | loop i io =>
      obtain ⟨ls, hls, hsvc, _, hs1, hs2, hloops⟩ := step_loop_shape tbl i io sys0 sys1 tr hstep
      have hne0 : sys0.loops ≠ [] := by
        intro h0
        rw [h0] at hls
        simp at hls
      have hlen : sys0.loops.length = 1 := by
        have := ih.1
        have : sys0.loops.length ≠ 0 := fun h0 => hne0 (List.length_eq_zero.mp h0)
        omega
      rcases loopStep_flag_or_exit tbl io ls sys0.svc with hflag | hexit
      · cases hn : (loopStep tbl io ls sys0.svc).next with
        | none =>
          rw [hn] at hloops
          simp only at hloops
          have hlen1 : sys1.loops.length = 0 := by
            rw [hloops, List.length_eraseIdx]
            have hi : i < sys0.loops.length := by
              by_contra hge
              rw [List.getElem?_eq_none (by omega)] at hls
              exact absurd hls (by simp)
            simp [hi, hlen]
            omega
          exact ⟨by omega, fun hne => absurd (List.length_eq_zero.mp hlen1) hne⟩
        | some l1 =>
          rw [hn] at hloops
          simp only at hloops
          refine ⟨by rw [hloops, List.length_set]; exact ih.1, fun _ => ?_⟩
          rw [hsvc, hflag, hs1, hs2]
          exact ih.2 hne0
      · rw [hexit] at hloops
        simp only at hloops
        have hlen1 : sys1.loops.length = 0 := by
          rw [hloops, List.length_eraseIdx]
          have hi : i < sys0.loops.length := by
            by_contra hge
            rw [List.getElem?_eq_none (by omega)] at hls
            exact absurd hls (by simp)
          simp [hi, hlen]
          omega
        exact ⟨by omega, fun hne => absurd (List.length_eq_zero.mp hlen1) hne⟩


/-! ## Two stops in a row -/

theorem countEvent_append (name : String) (a b : List Effect) :
    countEvent name (a ++ b) = countEvent name a + countEvent name b := by
  simp [countEvent, events_append]

/-- A property of traces that holds of the empty trace, of every step of the
scheduled loops and of concatenations holds of the trace of the schedule. -/
theorem run_loops_trace (tbl : Char → Char) (P : List Effect → Prop) (hnil : P [])
    (happ : ∀ a b, P a → P b → P (a ++ b)) (join : List (Nat × LoopInput)) :
    (∀ p ∈ join, ∀ ls s, P (loopStep tbl p.2 ls s).trace) →
      ∀ (sys sys1 : System) (tr : List Effect),
        run tbl (loopActions join) sys = some (sys1, tr) → P tr := by
  induction join with
  | nil =>
    intro _ sys sys1 tr h
    simp only [loopActions, List.map_nil, run, Option.some.injEq, Prod.mk.injEq] at h
    rw [← h.2]
    exact hnil
  | cons p rest ih =>
    intro hstep sys sys1 tr h
    simp only [loopActions, List.map_cons, run] at h
    cases hs : step tbl (Action.loop p.1 p.2) sys with
    | none => simp [hs] at h
    | some q =>
      obtain ⟨sysa, ta⟩ := q
      simp only [hs] at h
      cases hr : run tbl (List.map (fun p => Action.loop p.1 p.2) rest) sysa with
      | none => simp [hr] at h
      | some q2 =>
        obtain ⟨sysb, tb⟩ := q2
        simp only [hr, Option.some.injEq, Prod.mk.injEq] at h
        rw [← h.2]
        obtain ⟨ls, _, _, hta, _⟩ := step_loop_shape tbl p.1 p.2 sys sysa ta hs
        apply happ
        · rw [hta]
          exact hstep p (List.mem_cons_self _ _) ls sys.svc
        · exact ih (fun q hq => hstep q (List.mem_cons_of_mem _ hq)) sysa sysb tb hr

theorem handleResult_no_stop (tbl : Char → Char) (text : String) :
    countEvent "speech-stopped" (handleResult tbl text) = 0 ∧
      freedRecognizers (handleResult tbl text) = [] := by
  rcases handleResult_cases tbl text with h | ⟨n, p, h⟩
  · rw [h]
    exact ⟨rfl, rfl⟩
  · have hn : n ≠ "speech-stopped" := by
      intro hn
      subst hn
      unfold handleResult at h
      simp only at h
      split_ifs at h <;> simp at h
    rw [h]
    simp [countEvent, events, freedRecognizers, hn]

theorem loopStep_frees_nothing (tbl : Char → Char) (io : LoopInput) (ls : LoopState)
    (s : SpeechService) : freedRecognizers (loopStep tbl io ls s).trace = [] := by
  cases ls with
  | top => simp [loopStep, freedRecognizers]
  | checked l st r =>
    cases l <;> cases st <;> cases r <;> cases hc : s.stopChan <;>
      simp [loopStep, hc, freedRecognizers]
  | reading st =>
    cases he : io.readErr with
    | none => simp [loopStep, he, freedRecognizers]
    | some msg => cases hr : recoverable msg <;> simp [loopStep, he, hr, freedRecognizers]
  | feeding bytes =>
    cases hr : s.recognizer with
    | none => simp [loopStep, hr, freedRecognizers]
    | some r =>
      by_cases ha : io.accept = 1 <;> cases hd : io.decoded <;>
        simp [loopStep, hr, ha, hd, freedRecognizers, freedRecognizers_append]
      · split_ifs
        · rfl
        · exact (handleResult_no_stop tbl _).2
      · split_ifs <;> rfl

theorem loopStep_no_stopped (tbl : Char → Char) (io : LoopInput) (ls : LoopState)
    (s : SpeechService) (h : ∀ msg, io.readErr = some msg → recoverable msg = false) :
    countEvent "speech-stopped" (loopStep tbl io ls s).trace = 0 := by
  cases ls with
  | top => simp [loopStep, countEvent, events]
  | checked l st r =>
    cases l <;> cases st <;> cases r <;> cases hc : s.stopChan <;>
      simp [loopStep, hc, countEvent, events]
  | reading st =>
    cases he : io.readErr with
    | none => simp [loopStep, he, countEvent, events]
    | some msg => simp [loopStep, he, h msg he, countEvent, events]
  | feeding bytes =>
    cases hr : s.recognizer with
    | none => simp [loopStep, hr, countEvent, events]
    | some r =>
      by_cases ha : io.accept = 1
      · cases hd : io.decoded with
        | none => simp [loopStep, hr, ha, hd, countEvent, events]
        | some text =>
          by_cases ht : text = ""
          · simp [loopStep, hr, ha, hd, ht, countEvent, events]
          · have := (handleResult_no_stop tbl text).1
            simp only [loopStep, hr, ha, hd, ht, if_true, if_false, countEvent_append, this]
            simp [countEvent, events]
      · cases hd : io.decoded with
        | none => simp [loopStep, hr, ha, hd, countEvent, events]
        | some text =>
          by_cases ht : text = ""
          · simp [loopStep, hr, ha, hd, ht, countEvent, events]
          · simp [loopStep, hr, ha, hd, ht, countEvent, events]

theorem readingSys_sequential : ReachableVia turkishLower Sequential readingSys :=
  @ReachableVia.next turkishLower Sequential checkedSys readingSys (Action.loop 0 silence) []
    (@ReachableVia.next turkishLower Sequential listeningSys checkedSys (Action.loop 0 silence)
      [Effect.lock, Effect.unlock]
      (listeningSys_reachable turkishLower Sequential ⟨rfl, rfl⟩ ⟨rfl, rfl⟩) trivial
      (by decide))
    trivial (by decide)

/-- C5, as stated, fails in its second half.  The listening session
`readingSys`, reached with one controller call at a time, has its loop in
`stream.Read()`.  `StopDictation` clears the flag and waits; the read fails
with "File descriptor in bad state", so the loop emits `speech-stopped` before
it returns; then the call emits `speech-stopped` itself.  A second
`StopDictation` is a no-op: the two calls in a row come with two
`speech-stopped` events. -/
theorem second_stopped_event_on_fault :
    ReachableVia turkishLower Sequential readingSys ∧
      readingSys.svc.isListening = true ∧
      StopDictation turkishLower faultJoin readingSys = some faultStopOutcome ∧
      StopDictation turkishLower [] faultStopOutcome.sys =
        some { sys := faultStopOutcome.sys, trace := [Effect.lock, Effect.unlock],
               loopTrace := [] } ∧
      events faultStopOutcome.loopTrace = [("speech-stopped", Payload.flag true)] ∧
      events faultStopOutcome.trace = [("speech-stopped", Payload.flag true)] ∧
      countEvent "speech-stopped"
        (faultStopOutcome.trace ++ faultStopOutcome.loopTrace ++
          [Effect.lock, Effect.unlock]) = 2 :=
  ⟨readingSys_sequential, rfl, by decide, by decide, by decide, by decide, by decide⟩

/-- C5, amended: on a session that is not listening `StopDictation` returns
(its only return value is nil) with the system exactly as it was and with no
effect but taking and releasing the lock.  So, for every listening session a
controller that makes one call at a time can reach, the second of two
`StopDictation` calls in a row does nothing; the two calls emit exactly one
event themselves, `speech-stopped`; the calls and the loops together free
exactly one recognizer, the one the session held; and when no read fails with
a recoverable device fault while the first call waits, the calls and the loops
together emit exactly one `speech-stopped`. -/
theorem stop_when_idle_is_noop (tbl : Char → Char) (sys : System) :
    (sys.svc.isListening = false → ∀ join,
        StopDictation tbl join sys =
          some { sys := sys, trace := [Effect.lock, Effect.unlock], loopTrace := [] }) ∧
      (ReachableVia tbl Sequential sys → sys.svc.isListening = true → ∀ j1 j2 r1 r2,
        StopDictation tbl j1 sys = some r1 → StopDictation tbl j2 r1.sys = some r2 →
          r2.sys = r1.sys ∧ r2.trace = [Effect.lock, Effect.unlock] ∧ r2.loopTrace = [] ∧
            events (r1.trace ++ r2.trace) = [("speech-stopped", Payload.flag true)] ∧
            (∃ rc, sys.svc.recognizer = some rc ∧
              freedRecognizers (r1.trace ++ r1.loopTrace ++ r2.trace ++ r2.loopTrace) = [rc]) ∧
            (NoDeviceFault j1 →
              countEvent "speech-stopped"
                (r1.trace ++ r1.loopTrace ++ r2.trace ++ r2.loopTrace) = 1)) := by
  refine ⟨fun hl join => stopDictation_idle tbl join sys hl, ?_⟩
  intro hreach hl j1 j2 r1 r2 h1 h2
  obtain ⟨_, hinv⟩ := sequential_invariant tbl sys hreach
  obtain ⟨hctx, hrec, _, _⟩ := hinv hl
  obtain ⟨c, hc⟩ := Option.ne_none_iff_exists'.mp hctx
  obtain ⟨rc, hrc⟩ := Option.ne_none_iff_exists'.mp hrec
  obtain ⟨mid, tl, hrun, _, _, _, hf, _, hr⟩ := stopDictation_listening tbl j1 sys r1 hl h1
  have hk := stopBegin_keeps sys.svc
  have hfree := stop_result_idle tbl j1 sys r1 hl h1
  rw [stopDictation_idle tbl j2 r1.sys hfree.1] at h2
  simp only [Option.some.injEq] at h2
  subst h2
  have hmc : mid.svc.ctx = some c := by rw [hf.1, hk.1, hc]
  have hmr : mid.svc.recognizer = some rc := by rw [hf.2.2.1, hk.2.2.1, hrc]
  have hloopFree : freedRecognizers tl = [] :=
    run_loops_trace tbl (fun tr => freedRecognizers tr = []) rfl
      (fun a b ha hb => by simp only [freedRecognizers_append, ha, hb, List.append_nil]) j1
      (fun p _ ls s => loopStep_frees_nothing tbl p.2 ls s) _ mid tl hrun
  have hown : events (r1.trace ++ [Effect.lock, Effect.unlock]) =
      [("speech-stopped", Payload.flag true)] := by
    rw [hr]
    simp only [events_append, (stopBegin_trace sys.svc).2.2.1,
      (stopFinish_trace mid.svc).2.2.1, hmc]
    simp [events]
  refine ⟨rfl, rfl, rfl, hown, ⟨rc, hrc, ?_⟩, ?_⟩
  · rw [hr]
    simp only [freedRecognizers_append, (stopBegin_trace sys.svc).1,
      (stopFinish_trace mid.svc).1, hmr, hloopFree]
    simp [freedRecognizers]
  · intro hnf
    have hloopQuiet : countEvent "speech-stopped" tl = 0 :=
      run_loops_trace tbl (fun tr => countEvent "speech-stopped" tr = 0) rfl
        (fun a b ha hb => by simp only [countEvent_append, ha, hb]) j1
        (fun p hp ls s => loopStep_no_stopped tbl p.2 ls s (hnf p hp)) _ mid tl hrun
    have hcount : countEvent "speech-stopped" (r1.trace ++ [Effect.lock, Effect.unlock]) = 1 := by
      simp only [countEvent, hown]
      decide
    have hsplit : countEvent "speech-stopped"
        (r1.trace ++ r1.loopTrace ++ [Effect.lock, Effect.unlock] ++ []) =
        countEvent "speech-stopped" (r1.trace ++ [Effect.lock, Effect.unlock]) +
          countEvent "speech-stopped" r1.loopTrace := by
      simp only [List.append_nil, countEvent_append]
      omega
    have hlt : r1.loopTrace = tl := by rw [hr]
    rw [hsplit, hcount, hlt, hloopQuiet]

theorem stop_when_idle_is_noop_witness :
    stoppedSys.svc.isListening = false ∧
      StopDictation turkishLower [] stoppedSys = some idleStopOutcome ∧
      listeningSys.svc.isListening = true ∧ NoDeviceFault quietJoin ∧
      StopDictation turkishLower quietJoin listeningSys = some stopOutcome ∧
      freedRecognizers (stopOutcome.trace ++ stopOutcome.loopTrace ++ idleStopOutcome.trace ++
        idleStopOutcome.loopTrace) = [2] ∧
      countEvent "speech-stopped" (stopOutcome.trace ++ stopOutcome.loopTrace ++
        idleStopOutcome.trace ++ idleStopOutcome.loopTrace) = 1 :=
  ⟨rfl, (stop_when_idle_is_noop turkishLower stoppedSys).1 rfl [], rfl,
    quietJoin_noDeviceFault, by decide, by decide,
    ((stop_when_idle_is_noop turkishLower listeningSys).2
      (listeningSys_reachable turkishLower Sequential ⟨rfl, rfl⟩ ⟨rfl, rfl⟩) rfl quietJoin []
      stopOutcome idleStopOutcome (by decide) (by decide)).2.2.2.2.2 quietJoin_noDeviceFault⟩

end Speech
